import Mathlib

/-!
Verification of the event model and cryptographic-integrity layer of
gomatrixserverlib (matrix-org/golang-matrixfederation).

The Go source works on JSON byte strings.  We embed JSON values as the
inductive type `JValue`; a byte string holding valid JSON is represented by
the `JValue` it parses to, with object fields kept as an ordered association
list so that the field order of a serialized object (and hence byte-level
equality of serialized forms) is captured.  Objects are treated as
duplicate-key free, which is guaranteed for every byte string the library
itself produces (canonical JSON has sorted, distinct keys); lookups take the
first occurrence of a key and deletion removes every occurrence.

External collaborators that are not part of this repository are taken as
parameters: `sha` stands for crypto/sha256 (a function from the serialized
bytes to the digest bytes) and `signJSON` stands for the detached JSON
signing primitive SignJSON.  Base64 encoding (encoding/base64 RawStdEncoding
and RawURLEncoding, unpadded) is implemented concretely.  Base64-carrying
fields (`Base64String`) are modelled by their encoded string form; this is
faithful because Go's strict base64 decoder makes decode a partial inverse
of encode, so comparing decoded bytes coincides with comparing encoded
strings.
-/

/-- A JSON value.  `obj` keeps fields in serialization order. -/
inductive JValue where
  | null : JValue
  | bool (b : Bool) : JValue
  | num (n : Int) : JValue
  | str (s : String) : JValue
  | arr (xs : List JValue) : JValue
  | obj (fs : List (String × JValue)) : JValue
  deriving Repr

mutual

/-- Boolean equality on JSON values. -/
def jeq : JValue → JValue → Bool
  | .null, .null => true
  | .bool a, .bool b => a == b
  | .num a, .num b => a == b
  | .str a, .str b => a == b
  | .arr xs, .arr ys => jeqList xs ys
  | .obj fs, .obj gs => jeqFields fs gs
  | _, _ => false

/-- Boolean equality on lists of JSON values. -/
def jeqList : List JValue → List JValue → Bool
  | [], [] => true
  | x :: xs, y :: ys => jeq x y && jeqList xs ys
  | _, _ => false

/-- Boolean equality on JSON object field lists. -/
def jeqFields : List (String × JValue) → List (String × JValue) → Bool
  | [], [] => true
  | (k1, v1) :: xs, (k2, v2) :: ys => k1 == k2 && jeq v1 v2 && jeqFields xs ys
  | _, _ => false

end

mutual

theorem jeq_iff : ∀ a b : JValue, jeq a b = true ↔ a = b
  | .null, .null => by simp [jeq]
  | .bool _, .bool _ => by simp [jeq]
  | .num _, .num _ => by simp [jeq]
  | .str _, .str _ => by simp [jeq]
  | .arr xs, .arr ys => by simp [jeq, jeqList_iff xs ys]
  | .obj fs, .obj gs => by simp [jeq, jeqFields_iff fs gs]
  | .null, .bool _ | .null, .num _ | .null, .str _ | .null, .arr _ | .null, .obj _ => by simp [jeq]
  | .bool _, .null | .bool _, .num _ | .bool _, .str _ | .bool _, .arr _ | .bool _, .obj _ => by simp [jeq]
  | .num _, .null | .num _, .bool _ | .num _, .str _ | .num _, .arr _ | .num _, .obj _ => by simp [jeq]
  | .str _, .null | .str _, .bool _ | .str _, .num _ | .str _, .arr _ | .str _, .obj _ => by simp [jeq]
  | .arr _, .null | .arr _, .bool _ | .arr _, .num _ | .arr _, .str _ | .arr _, .obj _ => by simp [jeq]
  | .obj _, .null | .obj _, .bool _ | .obj _, .num _ | .obj _, .str _ | .obj _, .arr _ => by simp [jeq]

theorem jeqList_iff : ∀ xs ys : List JValue, jeqList xs ys = true ↔ xs = ys
  | [], [] => by simp [jeqList]
  | x :: xs, y :: ys => by simp [jeqList, jeq_iff x y, jeqList_iff xs ys]
  | [], _ :: _ => by simp [jeqList]
  | _ :: _, [] => by simp [jeqList]

theorem jeqFields_iff : ∀ xs ys : List (String × JValue), jeqFields xs ys = true ↔ xs = ys
  | [], [] => by simp [jeqFields]
  | (_, v1) :: xs, (_, v2) :: ys => by
      simp [jeqFields, jeq_iff v1 v2, jeqFields_iff xs ys, and_assoc, Prod.ext_iff]
  | [], _ :: _ => by simp [jeqFields]
  | _ :: _, [] => by simp [jeqFields]

end

instance : DecidableEq JValue := fun a b =>
  decidable_of_iff (jeq a b = true) (jeq_iff a b)

/-- Field lookup in a JSON object (first occurrence, as gjson does; identical
to Go's map semantics on duplicate-free objects). -/
def jLookup (fs : List (String × JValue)) (k : String) : Option JValue :=
  match fs with
  | [] => none
  | (k1, v) :: rest => if k1 = k then some v else jLookup rest k

/-- Field removal from a JSON object: removes every occurrence of the key
(delete on a Go map; sjson DeleteBytes on duplicate-free objects). -/
def jDel (fs : List (String × JValue)) (k : String) : List (String × JValue) :=
  match fs with
  | [] => []
  | (k1, v) :: rest => if k1 = k then jDel rest k else (k1, v) :: jDel rest k

/-- Remove several keys in order. -/
def jDelKeys (fs : List (String × JValue)) (ks : List String) : List (String × JValue) :=
  ks.foldl jDel fs

/-- Set a key in a JSON object the way Go's map assignment behaves once the
object is re-marshalled: the old binding is dropped and the new one added
(the caller sorts afterwards, so the position here is immaterial). -/
def jSet (fs : List (String × JValue)) (k : String) (v : JValue) : List (String × JValue) :=
  jDel fs k ++ [(k, v)]

/-- Byte-order comparison of key strings (the order canonical JSON and
Go map marshalling sort object keys by). -/
def charListLe : List Char → List Char → Bool
  | [], _ => true
  | _ :: _, [] => false
  | a :: as, b :: bs =>
      if a.toNat < b.toNat then true
      else if b.toNat < a.toNat then false
      else charListLe as bs

/-- Key order on strings. -/
def keyLe (a b : String) : Bool := charListLe a.data b.data

/-- Insertion into a key-sorted field list (insertion sort step). -/
def insertPair (p : String × JValue) : List (String × JValue) → List (String × JValue)
  | [] => [p]
  | q :: qs => if keyLe p.1 q.1 then p :: q :: qs else q :: insertPair p qs

/-- Sort a field list by key, as Go does when marshalling a map and as
canonical JSON requires for every object. -/
def sortPairs (fs : List (String × JValue)) : List (String × JValue) :=
  fs.foldr insertPair []

theorem insertPair_perm (p : String × JValue) (l : List (String × JValue)) :
    List.Perm (insertPair p l) (p :: l) := by
  induction l with
  | nil => simp [insertPair]
  | cons q qs ih =>
      by_cases h : keyLe p.1 q.1
      · simp [insertPair, h]
      · simp only [insertPair, if_neg h]
        exact ((ih.cons q).trans (List.Perm.swap p q qs))

theorem sortPairs_perm (fs : List (String × JValue)) : List.Perm (sortPairs fs) fs := by
  induction fs with
  | nil => simp [sortPairs]
  | cons p ps ih =>
      simp only [sortPairs, List.foldr_cons]
      exact (insertPair_perm p _).trans (ih.cons p)

/-- On an object with duplicate-free keys, lookup only depends on the set of
bindings (so sorting does not change it). -/
theorem jLookup_eq_of_perm {l1 l2 : List (String × JValue)}
    (h : List.Perm l1 l2) (nd : (l1.map Prod.fst).Nodup) (k : String) :
    jLookup l1 k = jLookup l2 k := by
  induction h with
  | nil => rfl
  | cons x h ih =>
      obtain ⟨k1, v1⟩ := x
      simp only [jLookup]
      by_cases hk : k1 = k
      · simp [hk]
      · simp only [if_neg hk]
        exact ih (by simpa using nd.of_cons)
  | swap x y l =>
      obtain ⟨k1, v1⟩ := x
      obtain ⟨k2, v2⟩ := y
      simp only [jLookup]
      by_cases h1 : k1 = k <;> by_cases h2 : k2 = k
      · exfalso
        simp only [List.map_cons, List.nodup_cons, List.mem_cons] at nd
        exact nd.1 (Or.inl (h2.trans h1.symm))
      · simp [h1, h2]
      · simp [h1, h2]
      · simp [h1, h2]
  | trans h1 h2 ih1 ih2 =>
      rename_i l1 l2 l3
      refine (ih1 nd).trans (ih2 ?_)
      exact (h1.map Prod.fst).nodup_iff.mp nd

theorem jLookup_sortPairs {fs : List (String × JValue)}
    (nd : (fs.map Prod.fst).Nodup) (k : String) :
    jLookup (sortPairs fs) k = jLookup fs k :=
  jLookup_eq_of_perm (sortPairs_perm fs)
    (((sortPairs_perm fs).map Prod.fst).nodup_iff.mpr nd) k

mutual

/-- Canonicalization of a parsed JSON value: recursively sort every object
by key.  Together with `serialize` below this models the canonical JSON
codec (CanonicalJSON / CanonicalJSONAssumeValid), the collaborator the spec
describes as producing lexicographically key-sorted, whitespace-minimal,
integer-preserving JSON. -/
def canonicalize : JValue → JValue
  | .null => .null
  | .bool b => .bool b
  | .num n => .num n
  | .str s => .str s
  | .arr xs => .arr (canonicalizeList xs)
  | .obj fs => .obj (sortPairs (canonicalizeFields fs))

/-- Canonicalize every element of a JSON array. -/
def canonicalizeList : List JValue → List JValue
  | [] => []
  | x :: xs => canonicalize x :: canonicalizeList xs

/-- Canonicalize every value of a JSON object (key order untouched here;
the caller sorts). -/
def canonicalizeFields : List (String × JValue) → List (String × JValue)
  | [] => []
  | (k, v) :: fs => (k, canonicalize v) :: canonicalizeFields fs

end

theorem canonicalizeFields_map_fst (fs : List (String × JValue)) :
    (canonicalizeFields fs).map Prod.fst = fs.map Prod.fst := by
  induction fs with
  | nil => rfl
  | cons p ps ih => obtain ⟨k, v⟩ := p; simp [canonicalizeFields, ih]

theorem jLookup_canonicalizeFields (fs : List (String × JValue)) (k : String) :
    jLookup (canonicalizeFields fs) k = (jLookup fs k).map canonicalize := by
  induction fs with
  | nil => rfl
  | cons p ps ih =>
      obtain ⟨k1, v1⟩ := p
      by_cases h : k1 = k <;> simp [canonicalizeFields, jLookup, h, ih]

/-- Looking a key up in a canonicalized duplicate-free object returns the
canonicalized original value. -/
theorem jLookup_canonicalize_obj {fs : List (String × JValue)}
    (nd : (fs.map Prod.fst).Nodup) (k : String) :
    jLookup (sortPairs (canonicalizeFields fs)) k = (jLookup fs k).map canonicalize := by
  rw [jLookup_sortPairs (by rw [canonicalizeFields_map_fst]; exact nd) k,
    jLookup_canonicalizeFields]

/-- Hexadecimal digit character (lower case), for string escapes. -/
def hexDigit (n : Nat) : Char :=
  let i := n % 16
  if i < 10 then Char.ofNat (48 + i) else Char.ofNat (87 + i)

/-- Escape one character of a JSON string: quote, backslash and control
characters are escaped, everything else is emitted literally. -/
def escapeChar (c : Char) : String :=
  if c = '"' then "\\\""
  else if c = '\\' then "\\\\"
  else if c.toNat < 32 then
    "\\u00" ++ String.mk [hexDigit (c.toNat / 16), hexDigit (c.toNat % 16)]
  else String.singleton c

/-- Escape a JSON string body. -/
def escapeString (s : String) : String :=
  String.join (s.data.map escapeChar)

mutual

/-- Compact serialization of a JSON value, preserving object field order;
applied to a canonicalized value this is the canonical JSON byte form. -/
def serialize : JValue → String
  | .null => "null"
  | .bool true => "true"
  | .bool false => "false"
  | .num n => toString n
  | .str s => "\"" ++ escapeString s ++ "\""
  | .arr xs => "[" ++ serializeList xs ++ "]"
  | .obj fs => "\x7b" ++ serializeFields fs ++ "\x7d"

/-- Comma-joined serialization of array elements. -/
def serializeList : List JValue → String
  | [] => ""
  | [x] => serialize x
  | x :: y :: xs => serialize x ++ "," ++ serializeList (y :: xs)

/-- Comma-joined serialization of object fields. -/
def serializeFields : List (String × JValue) → String
  | [] => ""
  | [(k, v)] => "\"" ++ escapeString k ++ "\":" ++ serialize v
  | (k, v) :: q :: fs =>
      "\"" ++ escapeString k ++ "\":" ++ serialize v ++ "," ++ serializeFields (q :: fs)

end

/-- Byte length of a serialized JSON value; models Go's len() on the
marshalled byte slice. -/
def jByteLen (j : JValue) : Nat := (serialize j).utf8ByteSize

/-- One character of the base64 alphabet; `url` selects the URL-safe
alphabet (RawURLEncoding) over the standard one (RawStdEncoding). -/
def b64Char (url : Bool) (n : Nat) : Char :=
  let i := n % 64
  if i < 26 then Char.ofNat (65 + i)
  else if i < 52 then Char.ofNat (97 + (i - 26))
  else if i < 62 then Char.ofNat (48 + (i - 52))
  else if i = 62 then (if url then '-' else '+')
  else (if url then '_' else '/')

/-- Unpadded base64 encoding of a byte sequence (RawStdEncoding or, when
`url` is set, RawURLEncoding), as used by Base64String.Encode. -/
def b64EncodeCore (url : Bool) : List Nat → List Char
  | [] => []
  | [b1] => [b64Char url (b1 / 4), b64Char url ((b1 % 4) * 16)]
  | [b1, b2] =>
      [b64Char url (b1 / 4), b64Char url ((b1 % 4) * 16 + b2 / 16),
       b64Char url ((b2 % 16) * 4)]
  | b1 :: b2 :: b3 :: rest =>
      b64Char url (b1 / 4) :: b64Char url ((b1 % 4) * 16 + b2 / 16) ::
      b64Char url ((b2 % 16) * 4 + b3 / 64) :: b64Char url (b3 % 64) ::
      b64EncodeCore url rest

/-- Unpadded base64 encoding, as a string. -/
def b64Encode (url : Bool) (bs : List Nat) : String := String.mk (b64EncodeCore url bs)

/-- RoomVersion refers to the room version for a specific room (an
extensible string, as in eventversion.go). -/
abbrev RoomVersion := String

/-- EventFormat refers to the formatting of the event fields struct. -/
inductive EventFormat where
  | V1 : EventFormat
  | V2 : EventFormat
  deriving DecidableEq, Repr

/-- EventIDFormat refers to the formatting used to generate new event IDs. -/
inductive EventIDFormat where
  | V1 : EventIDFormat
  | V2 : EventIDFormat
  | V3 : EventIDFormat
  deriving DecidableEq, Repr

/-- StateResAlgorithm refers to a version of the state resolution algorithm. -/
inductive StateResAlgorithm where
  | V1 : StateResAlgorithm
  | V2 : StateResAlgorithm
  deriving DecidableEq, Repr

/-- RoomVersionDescription contains information about a given room version
(eventversion.go). -/
structure RoomVersionDescription where
  Supported : Bool
  Stable : Bool
  stateResAlgorithm : StateResAlgorithm
  eventFormat : EventFormat
  eventIDFormat : EventIDFormat
  enforceSignatureChecks : Bool
  deriving DecidableEq, Repr

/-- The fixed room version registry (roomVersionMeta in eventversion.go),
as a partial lookup: unknown versions are absent. -/
def roomVersionMeta : RoomVersion → Option RoomVersionDescription
  | "1" => some ⟨true, true, .V1, .V1, .V1, false⟩
  | "2" => some ⟨true, true, .V2, .V1, .V1, false⟩
  | "3" => some ⟨true, true, .V2, .V2, .V2, false⟩
  | "4" => some ⟨true, true, .V2, .V2, .V3, false⟩
  | "5" => some ⟨true, true, .V2, .V2, .V3, true⟩
  | _ => none

/-- EventFormat lookup for a room version; errors with
UnsupportedRoomVersionError on an unknown version. -/
def RoomVersion.eventFormatOf (v : RoomVersion) : Except String EventFormat :=
  match roomVersionMeta v with
  | some r => .ok r.eventFormat
  | none => .error ("gomatrixserverlib: unsupported room version " ++ v)

/-- EventIDFormat lookup for a room version. -/
def RoomVersion.eventIDFormatOf (v : RoomVersion) : Except String EventIDFormat :=
  match roomVersionMeta v with
  | some r => .ok r.eventIDFormat
  | none => .error ("gomatrixserverlib: unsupported room version " ++ v)

/-- StrictValidityChecking lookup for a room version. -/
def RoomVersion.strictValidityChecking (v : RoomVersion) : Except String Bool :=
  match roomVersionMeta v with
  | some r => .ok r.enforceSignatureChecks
  | none => .error ("gomatrixserverlib: unsupported room version " ++ v)

/-- An EventReference is a reference to a matrix event.  The redacted-event
sha256 is carried in its base64 string form (see the header comment on the
Base64String modelling). -/
structure EventReference where
  eventID : String
  eventSHA256 : String
  deriving DecidableEq, Repr

/-- MarshalJSON for EventReference: a two element tuple of the event ID and
a hash object. -/
def EventReference.marshal (r : EventReference) : JValue :=
  .arr [.str r.eventID, .obj [("sha256", .str r.eventSHA256)]]

/-- UnmarshalJSON for EventReference: expects a two element tuple whose
first element is a string and whose second element is an object with an
optional sha256 key (JSON null unmarshals as a no-op, leaving zero values,
as in encoding/json). -/
def EventReference.unmarshal (j : JValue) : Except String EventReference :=
  match j with
  | .arr [a, b] =>
      match a with
      | .str id =>
          (match b with
           | .obj fs =>
               (match jLookup fs "sha256" with
                | some (.str s) => .ok ⟨id, s⟩
                | some .null => .ok ⟨id, ""⟩
                | none => .ok ⟨id, ""⟩
                | some _ => .error "gomatrixserverlib: invalid event reference, second element is invalid")
           | .null => .ok ⟨id, ""⟩
           | _ => .error "gomatrixserverlib: invalid event reference, second element is invalid")
      | .null => .ok ⟨"", ""⟩
      | _ => .error "gomatrixserverlib: invalid event reference, first element is invalid"
  | .arr _ => .error "gomatrixserverlib: invalid event reference, invalid length"
  | _ => .error "gomatrixserverlib: invalid event reference"

/-- Content keys kept by redaction for each event type (the switch in
RedactEvent, with keys listed in the allContent struct order used when the
filtered content is re-marshalled).  Types outside the table keep nothing. -/
def allowedContentKeys (typ : String) : List String :=
  if typ = "m.room.create" then ["creator"]
  else if typ = "m.room.member" then ["membership"]
  else if typ = "m.room.join_rules" then ["join_rule"]
  else if typ = "m.room.power_levels" then
    ["users", "users_default", "events", "events_default", "state_default",
     "ban", "kick", "redact"]
  else if typ = "m.room.history_visibility" then ["history_visibility"]
  else if typ = "m.room.aliases" then ["aliases"]
  else []

theorem allowedContentKeys_nodup (typ : String) : (allowedContentKeys typ).Nodup := by
  unfold allowedContentKeys
  repeat' split
  all_goals decide

/-- Keep, in order, the listed keys of a content object that are present
(rawJSON fields with omitempty: absent fields stay absent). -/
def filterContentKeys (keys : List String) (c : List (String × JValue)) :
    List (String × JValue) :=
  keys.filterMap (fun k => (jLookup c k).map (fun v => (k, v)))

/-- A single optional field of the marshalled struct: present values are
emitted under the key, absent ones are omitted (omitempty on rawJSON). -/
def mkOpt (k : String) (v : Option JValue) : List (String × JValue) :=
  match v with
  | some x => [(k, x)]
  | none => []

/-- Marshalling a Go struct whose fields may be omitted: emit, in struct
order, each present field under its JSON key. -/
def marshalOptFields (entries : List (String × Option JValue)) :
    List (String × JValue) :=
  match entries with
  | [] => []
  | (k, v) :: rest => mkOpt k v ++ marshalOptFields rest

/-- First-occurrence lookup among the declared struct entries. -/
def entryLookup (entries : List (String × Option JValue)) (k : String) :
    Option (Option JValue) :=
  match entries with
  | [] => none
  | (k1, v) :: rest => if k1 = k then some v else entryLookup rest k

/-- The top-level fields RedactEvent writes back, in the eventFields struct
order: the raw-copied allow-listed keys plus the always-present content and
type. -/
def redactTop (fs : List (String × JValue)) (typ : String)
    (newContent : List (String × JValue)) : List (String × JValue) :=
  marshalOptFields
    [("event_id", jLookup fs "event_id"),
     ("sender", jLookup fs "sender"),
     ("room_id", jLookup fs "room_id"),
     ("hashes", jLookup fs "hashes"),
     ("signatures", jLookup fs "signatures"),
     ("content", some (.obj newContent)),
     ("type", some (.str typ)),
     ("state_key", jLookup fs "state_key"),
     ("depth", jLookup fs "depth"),
     ("prev_events", jLookup fs "prev_events"),
     ("prev_state", jLookup fs "prev_state"),
     ("auth_events", jLookup fs "auth_events"),
     ("origin", jLookup fs "origin"),
     ("origin_server_ts", jLookup fs "origin_server_ts"),
     ("membership", jLookup fs "membership")]

/-- Unmarshalling the "type" key into the Go string field: absent or null
leaves the zero value, a string is taken, anything else is an unmarshal
error. -/
def redactGetType (fs : List (String × JValue)) : Except String String :=
  match jLookup fs "type" with
  | none => .ok ""
  | some .null => .ok ""
  | some (.str s) => .ok s
  | some _ => .error "gomatrixserverlib: cannot unmarshal type"

/-- Unmarshalling the "content" key into the allContent struct: absent or
null leaves the zero value, an object is taken, anything else is an
unmarshal error. -/
def redactGetContent (fs : List (String × JValue)) :
    Except String (List (String × JValue)) :=
  match jLookup fs "content" with
  | none => .ok []
  | some .null => .ok []
  | some (.obj c) => .ok c
  | some _ => .error "gomatrixserverlib: cannot unmarshal content"

/-- RedactEvent (part_000; called redactEvent at its call sites in event.go
and eventcrypto.go): strips the user controlled fields from an event but
leaves the fields necessary for authenticating it.  Unknown top-level keys
are discarded by the struct unmarshal; the content is replaced by the
per-type filtered content.  A JSON null input unmarshals as a no-op and so
redacts to an empty event, and a non-object input is an unmarshal error. -/
def RedactEvent (j : JValue) : Except String JValue :=
  match j with
  | .null => .ok (.obj (redactTop [] "" []))
  | .obj fs => do
      let typ ← redactGetType fs
      let c ← redactGetContent fs
      .ok (.obj (redactTop fs typ (filterContentKeys (allowedContentKeys typ) c)))
  | _ => .error "gomatrixserverlib: cannot unmarshal event"

theorem jLookup_append (a b : List (String × JValue)) (k : String) :
    jLookup (a ++ b) k =
      (match jLookup a k with
       | some v => some v
       | none => jLookup b k) := by
  induction a with
  | nil => simp [jLookup]
  | cons p ps ih =>
      obtain ⟨k1, v1⟩ := p
      by_cases h : k1 = k <;> simp [jLookup, h, ih]

theorem jLookup_mkOpt (k1 : String) (v : Option JValue) (k : String) :
    jLookup (mkOpt k1 v) k = if k1 = k then v else none := by
  cases v with
  | none => simp [mkOpt, jLookup]
  | some x => simp [mkOpt, jLookup]

theorem filterContentKeys_cons (k0 : String) (keys : List String)
    (c : List (String × JValue)) :
    filterContentKeys (k0 :: keys) c =
      mkOpt k0 (jLookup c k0) ++ filterContentKeys keys c := by
  cases h : jLookup c k0 <;> simp [filterContentKeys, mkOpt, h]

/-- Lookup in a filtered content object: listed keys come straight from the
original content, everything else is gone. -/
theorem jLookup_filterContentKeys {keys : List String} (nd : keys.Nodup)
    (c : List (String × JValue)) (k : String) :
    jLookup (filterContentKeys keys c) k =
      if k ∈ keys then jLookup c k else none := by
  induction keys with
  | nil => simp [filterContentKeys, jLookup]
  | cons k0 rest ih =>
      rw [filterContentKeys_cons, jLookup_append, jLookup_mkOpt]
      rcases List.nodup_cons.mp nd with ⟨hk0, hnd⟩
      by_cases hk : k0 = k
      · subst hk
        cases h0 : jLookup c k0 with
        | some v => simp [h0]
        | none => simp [h0, ih hnd, hk0]
      · simp only [if_neg hk]
        rw [ih hnd]
        have hne : ¬k = k0 := fun h => hk h.symm
        by_cases hm : k ∈ rest
        · simp [hm, List.mem_cons, hne]
        · simp [hm, List.mem_cons, hne]

/-- Lookup misses marshalOptFields entirely when the key is not declared. -/
theorem jLookup_marshalOptFields_notMem {entries : List (String × Option JValue)}
    {k : String} (h : ¬k ∈ entries.map Prod.fst) :
    jLookup (marshalOptFields entries) k = none := by
  induction entries with
  | nil => rfl
  | cons p rest ih =>
      obtain ⟨k1, v1⟩ := p
      simp only [List.map_cons, List.mem_cons, not_or] at h
      cases v1 <;>
        simp [marshalOptFields, mkOpt, jLookup, Ne.symm h.1, ih h.2]

/-- Lookup in a marshalled struct with distinct field names returns the
declared optional value of the key. -/
theorem jLookup_marshalOptFields {entries : List (String × Option JValue)}
    (nd : (entries.map Prod.fst).Nodup) (k : String) :
    jLookup (marshalOptFields entries) k = (entryLookup entries k).bind id := by
  induction entries with
  | nil => rfl
  | cons p rest ih =>
      obtain ⟨k1, v1⟩ := p
      have nd2 : (k1 :: rest.map Prod.fst).Nodup := by simpa using nd
      rcases List.nodup_cons.mp nd2 with ⟨hk1, hnd⟩
      by_cases hk : k1 = k
      · subst hk
        cases v1 with
        | some x => simp [marshalOptFields, mkOpt, jLookup, entryLookup]
        | none =>
            simp [marshalOptFields, mkOpt, entryLookup,
              jLookup_marshalOptFields_notMem hk1]
      · cases v1 <;>
          simp [marshalOptFields, mkOpt, jLookup, entryLookup, hk, ih hnd]

/-- The top-level keys redaction copies verbatim when present. -/
def redactTopRawKeys : List String :=
  ["event_id", "sender", "room_id", "hashes", "signatures", "state_key",
   "depth", "prev_events", "prev_state", "auth_events", "origin",
   "origin_server_ts", "membership"]

/-- Every top-level key a redacted event can contain. -/
def redactTopKeys : List String := redactTopRawKeys ++ ["content", "type"]

theorem jLookup_redactTop_type (fs : List (String × JValue)) (typ : String)
    (nc : List (String × JValue)) :
    jLookup (redactTop fs typ nc) "type" = some (.str typ) := by
  rw [redactTop, jLookup_marshalOptFields (by simp only [List.map_cons, List.map_nil]; decide)]
  simp [entryLookup]

theorem jLookup_redactTop_content (fs : List (String × JValue)) (typ : String)
    (nc : List (String × JValue)) :
    jLookup (redactTop fs typ nc) "content" = some (.obj nc) := by
  rw [redactTop, jLookup_marshalOptFields (by simp only [List.map_cons, List.map_nil]; decide)]
  simp [entryLookup]

theorem jLookup_redactTop_raw (fs : List (String × JValue)) (typ : String)
    (nc : List (String × JValue)) (k : String) (hk : k ∈ redactTopRawKeys) :
    jLookup (redactTop fs typ nc) k = jLookup fs k := by
  rw [redactTop, jLookup_marshalOptFields (by simp only [List.map_cons, List.map_nil]; decide)]
  fin_cases hk <;> simp [entryLookup]

theorem jLookup_redactTop_other (fs : List (String × JValue)) (typ : String)
    (nc : List (String × JValue)) (k : String) (hk : ¬k ∈ redactTopKeys) :
    jLookup (redactTop fs typ nc) k = none := by
  rw [redactTop, jLookup_marshalOptFields (by simp only [List.map_cons, List.map_nil]; decide)]
  simp only [redactTopKeys, redactTopRawKeys, List.mem_append, List.mem_cons,
    List.not_mem_nil, or_false, not_or] at hk
  obtain ⟨⟨e1, e2, e3, e4, e5, e6, e7, e8, e9, e10, e11, e12, e13⟩, e14, e15⟩ := hk
  simp [entryLookup, Ne.symm e1, Ne.symm e2, Ne.symm e3, Ne.symm e4,
    Ne.symm e5, Ne.symm e6, Ne.symm e7, Ne.symm e8, Ne.symm e9, Ne.symm e10,
    Ne.symm e11, Ne.symm e12, Ne.symm e13, Ne.symm e14, Ne.symm e15]

theorem filterContentKeys_congr {keys : List String}
    {c1 c2 : List (String × JValue)}
    (h : ∀ k ∈ keys, jLookup c1 k = jLookup c2 k) :
    filterContentKeys keys c1 = filterContentKeys keys c2 := by
  induction keys with
  | nil => rfl
  | cons k0 rest ih =>
      rw [filterContentKeys_cons, filterContentKeys_cons,
        h k0 (List.mem_cons_self k0 rest), ih (fun k hk => h k (List.mem_cons_of_mem k0 hk))]

/-- Filtering content to an allow-list is idempotent. -/
theorem filterContentKeys_idem {keys : List String} (nd : keys.Nodup)
    (c : List (String × JValue)) :
    filterContentKeys keys (filterContentKeys keys c) = filterContentKeys keys c := by
  refine filterContentKeys_congr (fun k hk => ?_)
  rw [jLookup_filterContentKeys nd, if_pos hk]

/-- Successful redaction of an object produces exactly the allow-listed
top-level structure. -/
theorem RedactEvent_obj_eq {fs : List (String × JValue)} {r : JValue}
    (h : RedactEvent (.obj fs) = .ok r) :
    ∃ typ c, redactGetType fs = .ok typ ∧ redactGetContent fs = .ok c ∧
      r = .obj (redactTop fs typ (filterContentKeys (allowedContentKeys typ) c)) := by
  cases ht : redactGetType fs with
  | error e => rw [RedactEvent] at h; rw [ht] at h; exact absurd h (by simp [Bind.bind, Except.bind])
  | ok typ =>
      cases hc : redactGetContent fs with
      | error e =>
          rw [RedactEvent] at h; rw [ht, hc] at h
          exact absurd h (by simp [Bind.bind, Except.bind])
      | ok c =>
          refine ⟨typ, c, rfl, rfl, ?_⟩
          rw [RedactEvent] at h; rw [ht, hc] at h
          simpa [Bind.bind, Except.bind] using h.symm

/-- Objects agreeing on all raw-copied keys redact to the same top level. -/
theorem redactTop_congr {fs1 fs2 : List (String × JValue)} (typ : String)
    (nc : List (String × JValue))
    (h : ∀ k ∈ redactTopRawKeys, jLookup fs1 k = jLookup fs2 k) :
    redactTop fs1 typ nc = redactTop fs2 typ nc := by
  rw [redactTop, redactTop,
    h "event_id" (by decide), h "sender" (by decide), h "room_id" (by decide),
    h "hashes" (by decide), h "signatures" (by decide), h "state_key" (by decide),
    h "depth" (by decide), h "prev_events" (by decide), h "prev_state" (by decide),
    h "auth_events" (by decide), h "origin" (by decide),
    h "origin_server_ts" (by decide), h "membership" (by decide)]

/-- Redacting an already-redacted byte string reproduces it unchanged. -/
theorem RedactEvent_idem {j r : JValue} (h : RedactEvent j = .ok r) :
    RedactEvent r = .ok r := by
  have hobj : ∃ typ c fs, redactGetType fs = .ok typ ∧ redactGetContent fs = .ok c ∧
      r = .obj (redactTop fs typ (filterContentKeys (allowedContentKeys typ) c)) := by
    cases j with
    | obj fs =>
        obtain ⟨typ, c, h1, h2, h3⟩ := RedactEvent_obj_eq h
        exact ⟨typ, c, fs, h1, h2, h3⟩
    | null =>
        refine ⟨"", [], [], rfl, rfl, ?_⟩
        rw [RedactEvent] at h
        simpa [allowedContentKeys, filterContentKeys] using h.symm
    | bool b => exact absurd h (by simp [RedactEvent])
    | num n => exact absurd h (by simp [RedactEvent])
    | str s => exact absurd h (by simp [RedactEvent])
    | arr xs => exact absurd h (by simp [RedactEvent])
  obtain ⟨typ, c, fs, _, _, h3⟩ := hobj
  subst h3
  rw [RedactEvent]
  rw [show redactGetType (redactTop fs typ (filterContentKeys (allowedContentKeys typ) c)) = .ok typ from by
        rw [redactGetType, jLookup_redactTop_type]]
  rw [show redactGetContent (redactTop fs typ (filterContentKeys (allowedContentKeys typ) c)) =
        .ok (filterContentKeys (allowedContentKeys typ) c) from by
        rw [redactGetContent, jLookup_redactTop_content]]
  simp only [Bind.bind, Except.bind]
  congr 1
  rw [filterContentKeys_idem (allowedContentKeys_nodup typ)]
  congr 1
  exact redactTop_congr typ _ (jLookup_redactTop_raw fs typ _)

/-- Unmarshalling a byte string into a Go map of raw values: an object gives
its bindings, JSON null is a no-op leaving the empty map (remarshalling
that corner is approximated by an empty object), anything else errors. -/
def asMap : JValue → Except String (List (String × JValue))
  | .obj fs => .ok fs
  | .null => .ok []
  | _ => .error "gomatrixserverlib: cannot unmarshal event as object"

/-- Marshal a Go map of raw JSON values: keys come out sorted. -/
def marshalMap (fs : List (String × JValue)) : JValue := .obj (sortPairs fs)

/-- The canonical byte string the content-hash computation feeds to SHA-256
at construction time: the event with the unsigned and hashes keys removed,
marshalled and canonicalized (the hashable JSON of addContentHashesToEvent). -/
def contentHashInputAdd (j : JValue) : Except String String := do
  let m ← asMap j
  let m1 := jDelKeys m ["unsigned", "hashes"]
  .ok (serialize (canonicalize (marshalMap m1)))

/-- The canonical byte string the ingestion-time hash check feeds to
SHA-256: the event with the signatures, unsigned and hashes keys removed,
marshalled and canonicalized (the hashable JSON of checkEventContentHash). -/
def contentHashInputCheck (j : JValue) : Except String String := do
  let m ← asMap j
  let m1 := jDelKeys m ["signatures", "unsigned", "hashes"]
  .ok (serialize (canonicalize (marshalMap m1)))

/-- addContentHashesToEvent (eventcrypto.go): sets the "hashes" key of the
event to an object holding the base64 SHA-256 of the unredacted event with
the unsigned and hashes keys removed; the unsigned value, when present, is
put back unchanged. -/
def addContentHashesToEvent (sha : String → List Nat) (j : JValue) :
    Except String JValue := do
  let m ← asMap j
  let unsignedJSON := jLookup m "unsigned"
  let m1 := jDelKeys m ["unsigned", "hashes"]
  let hashable := serialize (canonicalize (marshalMap m1))
  let digest := sha hashable
  let hashesJSON : JValue := .obj [("sha256", .str (b64Encode false digest))]
  let m2 := match unsignedJSON with
            | some u => jSet m1 "unsigned" u
            | none => m1
  .ok (marshalMap (jSet m2 "hashes" hashesJSON))

/-- The hash value an event declares under hashes.sha256, in its base64
string form: absent hashes is an unmarshal error, a missing or null sha256
key leaves the zero value (the empty string), a non-string sha256 is an
unmarshal error. -/
def declaredContentHash (j : JValue) : Except String String := do
  let m ← asMap j
  match jLookup m "hashes" with
  | none => .error "unexpected end of JSON input"
  | some (.obj hs) =>
      match jLookup hs "sha256" with
      | some (.str s) => .ok s
      | some .null => .ok ""
      | none => .ok ""
      | some _ => .error "gomatrixserverlib: cannot unmarshal sha256"
  | some .null => .ok ""
  | some _ => .error "gomatrixserverlib: cannot unmarshal hashes"

/-- checkEventContentHash (eventcrypto.go): recompute the SHA-256 of the
event with the signatures, unsigned and hashes keys removed and compare it
against the declared hashes.sha256 (the byte comparison of the Go code is
carried out on the base64 string forms, see the header comment). -/
def checkEventContentHash (sha : String → List Nat) (j : JValue) :
    Except String Unit := do
  let declared ← declaredContentHash j
  let input ← contentHashInputCheck j
  if b64Encode false (sha input) = declared then .ok ()
  else .error "Invalid Sha256 content hash"

/-- The SHA-256 digest used for event references: computed over the
redacted event with the signatures and unsigned keys removed, canonicalized
(the hash pipeline of referenceOfEvent in eventcrypto.go). -/
def referenceHashOfEvent (sha : String → List Nat) (j : JValue) :
    Except String (List Nat) := do
  let redactedJSON ← RedactEvent j
  let m ← asMap redactedJSON
  let m1 := jDelKeys m ["signatures", "unsigned"]
  .ok (sha (serialize (canonicalize (marshalMap m1))))

/-- Modelled from the spec: the room-version-aware referenceOfEvent called
by generateEventID and EventReference is not under src/ (src/eventcrypto.go
carries an older, version-unaware variant whose hash pipeline —
`referenceHashOfEvent` above — this definition reuses verbatim).  Per the
spec, the event id carried in the reference is read from the event under
the Random id format and derived as "$" followed by the (URL-safe for the
URL-safe format) base64 of the reference hash under the hash-based
formats. -/
def referenceOfEvent (sha : String → List Nat) (j : JValue) (v : RoomVersion) :
    Except String EventReference := do
  let redactedJSON ← RedactEvent j
  let m ← asMap redactedJSON
  let m1 := jDelKeys m ["signatures", "unsigned"]
  let digest := sha (serialize (canonicalize (marshalMap m1)))
  let idFormat ← RoomVersion.eventIDFormatOf v
  match idFormat with
  | .V1 =>
      match jLookup m1 "event_id" with
      | some (.str id) => .ok ⟨id, b64Encode false digest⟩
      | some .null => .ok ⟨"", b64Encode false digest⟩
      | _ => .error "gomatrixserverlib: invalid event id"
  | .V2 => .ok ⟨"$" ++ b64Encode false digest, b64Encode false digest⟩
  | .V3 => .ok ⟨"$" ++ b64Encode true digest, b64Encode false digest⟩

/-- signEvent (eventcrypto.go): redact the event, hand the redacted form to
the detached JSON signing primitive (the parameter signJSON), pull the
resulting signatures value out, and splice it into the original unredacted
event. -/
def signEvent (signJSON : String → String → String → JValue → Except String JValue)
    (signingName keyID privateKey : String) (j : JValue) : Except String JValue := do
  let redactedJSON ← RedactEvent j
  let signedJSON ← signJSON signingName keyID privateKey redactedJSON
  let sigs ← match signedJSON with
    | .obj sfs => pure (jLookup sfs "signatures")
    | .null => pure none
    | _ => Except.error "gomatrixserverlib: cannot unmarshal signed event"
  let sigVal ← match sigs with
    | some sv => pure sv
    | none => Except.error "unexpected end of JSON input"
  let m ← asMap j
  .ok (marshalMap (jSet m "signatures" sigVal))

/-- The shared event fields struct (eventFields in event.go).  Go zero
values stand in for absent JSON keys; RawJSON fields are `Option JValue`
(none models nil bytes, i.e. an absent key). -/
structure eventFields where
  EventID : String := ""
  RoomID : String := ""
  Sender : String := ""
  EventType : String := ""
  StateKey : Option String := none
  Content : Option JValue := none
  Redacts : String := ""
  Depth : Int := 0
  Unsigned : Option JValue := none
  OriginServerTS : Int := 0
  Origin : String := ""
  deriving DecidableEq, Repr

/-- Fields for room versions 1, 2: prev/auth events are reference tuples.
`none` models a nil Go slice (absent or null in the JSON), `some []` an
empty one. -/
structure eventFormatV1Fields where
  base : eventFields := {}
  PrevEvents : Option (List EventReference) := none
  AuthEvents : Option (List EventReference) := none
  deriving DecidableEq, Repr

/-- Fields for room versions 3, 4, 5: prev/auth events are bare id lists. -/
structure eventFormatV2Fields where
  base : eventFields := {}
  PrevEvents : Option (List String) := none
  AuthEvents : Option (List String) := none
  deriving DecidableEq, Repr

/-- The dynamic type of Event.fields (an interface value in Go): a typed
projection for one of the two formats, or the untyped value produced by
unmarshalling into an empty interface (as Event.Redact does). -/
inductive EventFieldsAny where
  | v1 (f : eventFormatV1Fields) : EventFieldsAny
  | v2 (f : eventFormatV2Fields) : EventFieldsAny
  | generic (j : JValue) : EventFieldsAny
  deriving DecidableEq, Repr

/-- An Event is a matrix event (event.go).  Defaults are the Go zero
values: nil bytes, nil fields interface, empty room version. -/
structure Event where
  redacted : Bool := false
  eventJSON : Option JValue := none
  fields : Option EventFieldsAny := none
  roomVersion : RoomVersion := ""
  deriving DecidableEq, Repr

/-- Unmarshal a JSON value into a Go string field: absent and null leave
the zero value. -/
def unmarshalString (v : Option JValue) : Except String String :=
  match v with
  | none => .ok ""
  | some .null => .ok ""
  | some (.str s) => .ok s
  | some _ => .error "gomatrixserverlib: cannot unmarshal string"

/-- Unmarshal a JSON value into a Go *string field: absent and null yield
nil. -/
def unmarshalOptString (v : Option JValue) : Except String (Option String) :=
  match v with
  | none => .ok none
  | some .null => .ok none
  | some (.str s) => .ok (some s)
  | some _ => .error "gomatrixserverlib: cannot unmarshal string pointer"

/-- Unmarshal a JSON value into a Go int64 field: absent and null leave
zero. -/
def unmarshalInt (v : Option JValue) : Except String Int :=
  match v with
  | none => .ok 0
  | some .null => .ok 0
  | some (.num n) => .ok n
  | some _ => .error "gomatrixserverlib: cannot unmarshal number"

/-- Unmarshal a JSON array of event reference tuples into a Go
[]EventReference: absent and null give the nil slice. -/
def unmarshalRefList (v : Option JValue) : Except String (Option (List EventReference)) :=
  match v with
  | none => .ok none
  | some .null => .ok none
  | some (.arr xs) => (xs.mapM EventReference.unmarshal).map some
  | some _ => .error "gomatrixserverlib: cannot unmarshal reference list"

/-- Unmarshal a JSON array of strings into a Go []string: absent and null
give the nil slice; a null element leaves its zero value. -/
def unmarshalStringList (v : Option JValue) : Except String (Option (List String)) :=
  match v with
  | none => .ok none
  | some .null => .ok none
  | some (.arr xs) =>
      (xs.mapM (fun (x : JValue) =>
        (match x with
        | .str s => Except.ok s
        | .null => Except.ok ""
        | _ => Except.error "gomatrixserverlib: cannot unmarshal string" :
          Except String String))).map some
  | some _ => .error "gomatrixserverlib: cannot unmarshal string list"

/-- Unmarshal the shared eventFields struct from an object. -/
def parseEventFields (fs : List (String × JValue)) : Except String eventFields := do
  let eid ← unmarshalString (jLookup fs "event_id")
  let rid ← unmarshalString (jLookup fs "room_id")
  let snd ← unmarshalString (jLookup fs "sender")
  let typ ← unmarshalString (jLookup fs "type")
  let sk ← unmarshalOptString (jLookup fs "state_key")
  let rdt ← unmarshalString (jLookup fs "redacts")
  let dpt ← unmarshalInt (jLookup fs "depth")
  let ots ← unmarshalInt (jLookup fs "origin_server_ts")
  let org ← unmarshalString (jLookup fs "origin")
  .ok { EventID := eid, RoomID := rid, Sender := snd, EventType := typ,
        StateKey := sk, Content := jLookup fs "content", Redacts := rdt,
        Depth := dpt, Unsigned := jLookup fs "unsigned",
        OriginServerTS := ots, Origin := org }

/-- Unmarshal eventFormatV1Fields from a JSON value. -/
def parseV1Fields (j : JValue) : Except String eventFormatV1Fields := do
  let fs ← asMap j
  let base ← parseEventFields fs
  let pe ← unmarshalRefList (jLookup fs "prev_events")
  let ae ← unmarshalRefList (jLookup fs "auth_events")
  .ok { base := base, PrevEvents := pe, AuthEvents := ae }

/-- Unmarshal eventFormatV2Fields from a JSON value. -/
def parseV2Fields (j : JValue) : Except String eventFormatV2Fields := do
  let fs ← asMap j
  let base ← parseEventFields fs
  let pe ← unmarshalStringList (jLookup fs "prev_events")
  let ae ← unmarshalStringList (jLookup fs "auth_events")
  .ok { base := base, PrevEvents := pe, AuthEvents := ae }

/-- fixNilSlices for the v1 format: nil prev/auth slices become empty
ones. -/
def eventFormatV1Fields.fixNilSlices (f : eventFormatV1Fields) : eventFormatV1Fields :=
  { f with PrevEvents := some (f.PrevEvents.getD []),
           AuthEvents := some (f.AuthEvents.getD []) }

/-- fixNilSlices for the v2 format. -/
def eventFormatV2Fields.fixNilSlices (f : eventFormatV2Fields) : eventFormatV2Fields :=
  { f with PrevEvents := some (f.PrevEvents.getD []),
           AuthEvents := some (f.AuthEvents.getD []) }

/-- Delete a top-level key from a JSON byte string (sjson.DeleteBytes): on
a non-object the input is left unchanged. -/
def jDelTop (j : JValue) (k : String) : JValue :=
  match j with
  | .obj fs => .obj (jDel fs k)
  | other => other

/-- MRoomMember is the "m.room.member" event type (constant from the
eventauth part of the library). -/
def MRoomMember : String := "m.room.member"

/-- maxIDLength: the event ID, room ID, sender, event type and state key
fields cannot be bigger than this. -/
def maxIDLength : Nat := 255

/-- maxEventLength: the entire event JSON, including signatures, cannot be
bigger than this. -/
def maxEventLength : Nat := 65536

/-- The distinct failure reasons of the field validator (and the panics it
can raise, modelled as the two panic variants). -/
inductive CheckErr where
  | nilPrevAuth : CheckErr
  | eventTooLong (n : Nat) : CheckErr
  | typeTooLong (n : Nat) : CheckErr
  | stateKeyTooLong (n : Nat) : CheckErr
  | missingColon (kind : String) (id : String) : CheckErr
  | wrongSigil (kind : String) (id : String) : CheckErr
  | idTooLong (kind : String) (n : Nat) : CheckErr
  | eventIDDomainMismatch (domain origin : String) : CheckErr
  | senderDomainMismatch (domain origin : String) : CheckErr
  | panicInvalidFields : CheckErr
  | panicUnsupportedVersion : CheckErr
  deriving DecidableEq, Repr

/-- Render a validator failure the way the Go errors read (values elided). -/
def CheckErr.message : CheckErr → String
  | .nilPrevAuth => "gomatrixserverlib: auth events and prev events must not be nil"
  | .eventTooLong _ => "gomatrixserverlib: event is too long"
  | .typeTooLong _ => "gomatrixserverlib: event type is too long"
  | .stateKeyTooLong _ => "gomatrixserverlib: state key is too long"
  | .missingColon kind _ => "gomatrixserverlib: invalid " ++ kind ++ " ID, missing colon"
  | .wrongSigil kind _ => "gomatrixserverlib: invalid " ++ kind ++ " ID, wrong sigil"
  | .idTooLong kind _ => "gomatrixserverlib: " ++ kind ++ " ID is too long"
  | .eventIDDomainMismatch _ _ => "gomatrixserverlib: event ID domain doesn't match origin"
  | .senderDomainMismatch _ _ => "gomatrixserverlib: sender domain doesn't match origin"
  | .panicInvalidFields => "gomatrixserverlib: field type invalid"
  | .panicUnsupportedVersion => "gomatrixserverlib: unsupported room version"

/-- Split a character list at the first occurrence of a separator; none
when the separator does not occur (strings.SplitN with n = 2). -/
def splitFirst (cs : List Char) (sep : Char) : Option (List Char × List Char) :=
  match cs with
  | [] => none
  | c :: rest =>
      if c = sep then some ([], rest)
      else (splitFirst rest sep).map (fun p => (c :: p.1, p.2))

/-- Split a character list on every occurrence of a separator
(strings.Split / the gjson dotted-path split). -/
def splitOnChar (cs : List Char) (sep : Char) : List (List Char)  :=
  match cs with
  | [] => [[]]
  | c :: rest =>
      if c = sep then [] :: splitOnChar rest sep
      else match splitOnChar rest sep with
           | [] => [[c]]
           | g :: gs => (c :: g) :: gs

/-- Modelled after SplitID (event.go), whose file carries the only splitting
logic under src/: the domain of a matrix ID is everything after the first
colon; an ID without a colon has no domain. -/
def domainFromID (id : String) : Option String :=
  match splitFirst id.data ':' with
  | none => none
  | some (_, domain) => some (String.mk domain)

/-- checkID (event.go): extract the domain, check the sigil byte and the
length bound. -/
def checkID (id kind : String) (sigil : Char) : Except CheckErr String := do
  let domain ← match domainFromID id with
    | some d => Except.ok d
    | none => Except.error (.missingColon kind id)
  if id.data.head? ≠ some sigil then
    Except.error (.wrongSigil kind id)
  else if id.utf8ByteSize > maxIDLength then
    Except.error (.idTooLong kind id.utf8ByteSize)
  else
    Except.ok domain

/-- Event.CheckFields (event.go): the nil-slice rejection, the size limits,
the ID grammar checks, and — only under the Random event-id format — the
event-id-domain and sender-domain against-origin checks, the latter
excepting m.room.member events. -/
def Event.CheckFields (e : Event) : Except CheckErr Unit := do
  let base ← match e.fields with
    | some (.v1 f) =>
        if f.AuthEvents = none ∨ f.PrevEvents = none then
          Except.error CheckErr.nilPrevAuth
        else Except.ok f.base
    | some (.v2 f) =>
        if f.AuthEvents = none ∨ f.PrevEvents = none then
          Except.error CheckErr.nilPrevAuth
        else Except.ok f.base
    | _ => Except.error CheckErr.panicInvalidFields
  let jlen := match e.eventJSON with
    | some j => jByteLen j
    | none => 0
  if jlen > maxEventLength then
    Except.error (.eventTooLong jlen)
  else if base.EventType.utf8ByteSize > maxIDLength then
    Except.error (.typeTooLong base.EventType.utf8ByteSize)
  else do
    match base.StateKey with
    | some sk =>
        if sk.utf8ByteSize > maxIDLength then
          Except.error (.stateKeyTooLong sk.utf8ByteSize)
        else Except.ok ()
    | none => Except.ok ()
    let _ ← checkID base.RoomID "room" '!'
    let origin := base.Origin
    let senderDomain ← checkID base.Sender "user" '@'
    let idFormat ← match RoomVersion.eventIDFormatOf e.roomVersion with
      | .ok f => Except.ok f
      | .error _ => Except.error CheckErr.panicUnsupportedVersion
    if idFormat = EventIDFormat.V1 then do
      let eid ← match e.fields with
        | some (.v1 f) => Except.ok f.base.EventID
        | _ => Except.error CheckErr.panicInvalidFields
      let eventDomain ← checkID eid "event" '$'
      if origin ≠ eventDomain then
        Except.error (.eventIDDomainMismatch eventDomain origin)
      else if origin ≠ senderDomain ∧ base.EventType ≠ MRoomMember then
        Except.error (.senderDomainMismatch senderDomain origin)
      else Except.ok ()
    else
      Except.ok ()

/-- generateEventID (event.go): under the Random id format the id parsed
from the JSON is used; under the hash formats (room versions 3, 4, 5) the
id comes from the reference of the event bytes the Event currently holds.
The Go type assertion on the fields is modelled as an error-valued panic. -/
def generateEventID (sha : String → List Nat) (e : Event) : Except String String :=
  if e.roomVersion = "1" ∨ e.roomVersion = "2" then
    match e.fields with
    | some (.v1 f) => .ok f.base.EventID
    | _ => .error "panic: invalid field type"
  else if e.roomVersion = "3" ∨ e.roomVersion = "4" ∨ e.roomVersion = "5" then
    match e.eventJSON with
    | none => .error "unexpected end of JSON input"
    | some j => (referenceOfEvent sha j e.roomVersion).map (fun r => r.eventID)
  else .error "gomatrixserverlib: unknown room version"

/-- populateFieldsFromJSON (event.go): unmarshal the versioned projection,
generate the v2 event id, and fix nil slices. -/
def populateFieldsFromJSON (sha : String → List Nat) (e : Event) (j : JValue) :
    Except String Event := do
  let fmt ← RoomVersion.eventFormatOf e.roomVersion
  match fmt with
  | .V1 => do
      let flds ← parseV1Fields j
      .ok { e with fields := some (.v1 flds.fixNilSlices) }
  | .V2 => do
      let j2 := jDelTop j "event_id"
      let flds ← parseV2Fields j2
      let eid ← generateEventID sha e
      let flds2 := { flds with base := { flds.base with EventID := eid } }
      .ok { e with fields := some (.v2 flds2.fixNilSlices) }

/-- NewEventFromTrustedJSON (event.go). -/
def NewEventFromTrustedJSON (sha : String → List Nat) (j : JValue)
    (redacted : Bool) (v : RoomVersion) : Except String Event :=
  let e : Event := { redacted := redacted, eventJSON := some j, roomVersion := v }
  populateFieldsFromJSON sha e j

/-- NewEventFromUntrustedJSON (event.go): strip the compact-format event id
and the legacy noise keys, canonicalize, check the content hash — redacting
and, when redaction changed the bytes, reparsing on a mismatch — and
validate the fields. -/
def NewEventFromUntrustedJSON (sha : String → List Nat) (j : JValue)
    (v : RoomVersion) : Except String Event := do
  let e0 : Event := { roomVersion := v }
  let fmt ← RoomVersion.eventFormatOf v
  let j1 := if fmt = EventFormat.V2 then jDelTop j "event_id" else j
  let e1 ← populateFieldsFromJSON sha e0 j1
  let j2 := jDelTop (jDelTop (jDelTop j1 "outlier") "destinations") "age_ts"
  let j3 := canonicalize j2
  match checkEventContentHash sha j3 with
  | .ok _ =>
      let e2 := { e1 with eventJSON := some j3 }
      match e2.CheckFields with
      | .ok _ => .ok e2
      | .error er => .error er.message
  | .error _ => do
      let rj ← RedactEvent j3
      let rj2 := canonicalize rj
      let e2 ← if rj2 = j3 then pure { e1 with redacted := true }
               else NewEventFromTrustedJSON sha rj2 true v
      let e3 := { e2 with eventJSON := some rj2 }
      match e3.CheckFields with
      | .ok _ => .ok e3
      | .error er => .error er.message

/-- In-place set of a key in an object field list (sjson keeps the position
of an existing key and appends a missing one). -/
def jSetInPlace (fs : List (String × JValue)) (k : String) (v : JValue) :
    List (String × JValue) :=
  match fs with
  | [] => [(k, v)]
  | (k1, v1) :: rest =>
      if k1 = k then (k, v) :: rest else (k1, v1) :: jSetInPlace rest k v

/-- sjson.SetBytes for a dotted path represented as a list of segments:
missing or non-object intermediates are replaced by fresh objects (the
gjson escape syntax for path segments is not modelled). -/
def jSetPath (j : JValue) (path : List String) (v : JValue) : JValue :=
  match path with
  | [] => v
  | k :: rest =>
      let fs := match j with
        | .obj fs => fs
        | _ => []
      let child := match jLookup fs k with
        | some c => c
        | none => .null
      .obj (jSetInPlace fs k (jSetPath child rest v))

/-- Event.Redact (event.go): a no-op on an already redacted event;
otherwise redact and canonicalize the bytes and build a fresh Event whose
fields are the result of unmarshalling into an empty interface and whose
room version is left at its zero value.  The Go panics on redaction or
canonicalization failure are modelled as errors. -/
def Event.Redact (e : Event) : Except String Event :=
  if e.redacted then .ok e
  else do
    let j ← match e.eventJSON with
      | some j => pure j
      | none => Except.error "unexpected end of JSON input"
    let rj ← RedactEvent j
    let rj2 := canonicalize rj
    .ok { redacted := true, eventJSON := some rj2,
          fields := some (.generic rj2), roomVersion := "" }

/-- Event.Sign (event.go): sign and canonicalize the bytes and return a new
Event carrying the old redacted flag and fields; the room version is left
at its zero value.  The Go panics are modelled as errors. -/
def Event.Sign (signJSON : String → String → String → JValue → Except String JValue)
    (e : Event) (signingName keyID privateKey : String) : Except String Event := do
  let j ← match e.eventJSON with
    | some j => pure j
    | none => Except.error "unexpected end of JSON input"
  let s ← signEvent signJSON signingName keyID privateKey j
  let s2 := canonicalize s
  .ok { redacted := e.redacted, eventJSON := some s2,
        fields := e.fields, roomVersion := "" }

/-- updateUnsignedFields (event.go): overwrite the unsigned value of the
parsed projection and fix nil slices; errors on an untyped or absent
projection. -/
def Event.updateUnsignedFields (e : Event) (unsigned : Option JValue) :
    Except String Event :=
  match e.fields with
  | some (.v1 f) =>
      let f2 := { f with base := { f.base with Unsigned := unsigned } }
      .ok { e with fields := some (.v1 f2.fixNilSlices) }
  | some (.v2 f) =>
      let f2 := { f with base := { f.base with Unsigned := unsigned } }
      .ok { e with fields := some (.v2 f2.fixNilSlices) }
  | _ => .error ("gomatrixserverlib: unsupported room version " ++ e.roomVersion)

/-- Event.SetUnsigned (event.go).  The first component is the state of the
receiver after the call (Go mutates it through updateUnsignedFields before
copying), the second the returned value: a copy carrying the new canonical
bytes. -/
def Event.SetUnsigned (e : Event) (unsigned : JValue) :
    Event × Except String Event :=
  match e.eventJSON with
  | none => (e, .error "unexpected end of JSON input")
  | some j =>
      match asMap j with
      | .error er => (e, .error er)
      | .ok m =>
          let ej := canonicalize (marshalMap (jSet m "unsigned" unsigned))
          match e.updateUnsignedFields (some unsigned) with
          | .error er => (e, .error er)
          | .ok e2 => (e2, .ok { e2 with eventJSON := some ej })

/-- Event.SetUnsignedField (event.go): set a path under unsigned directly
in the receiver's bytes and parsed fields.  The first component is the
receiver after the call; only an error is returned. -/
def Event.SetUnsignedField (e : Event) (path : String) (value : JValue) :
    Event × Except String Unit :=
  let fullPath := "unsigned" :: (splitOnChar path.data '.').map String.mk
  let ej := canonicalize (jSetPath (e.eventJSON.getD .null) fullPath value)
  let unsigned := match ej with
    | .obj fs => jLookup fs "unsigned"
    | _ => none
  match e.updateUnsignedFields unsigned with
  | .error er => (e, .error er)
  | .ok e2 => ({ e2 with eventJSON := some ej }, .ok ())

/-- A value of the untyped PrevEvents/AuthEvents builder fields: the two
documented slice types, or a nil interface. -/
inductive PrevAuthValue where
  | refs (l : List EventReference) : PrevAuthValue
  | strs (l : List String) : PrevAuthValue
  | nilValue : PrevAuthValue
  deriving DecidableEq, Repr

/-- Marshal a PrevAuthValue the way encoding/json marshals the interface
value: reference tuples, a string array, or null for nil. -/
def PrevAuthValue.marshal : PrevAuthValue → JValue
  | .refs l => .arr (l.map EventReference.marshal)
  | .strs l => .arr (l.map JValue.str)
  | .nilValue => .null

/-- An EventBuilder is used to build a new event (event.go).  Content is
optional because a builder whose content was never set carries a nil
RawJSON, which fails to marshal. -/
structure EventBuilder where
  Sender : String := ""
  RoomID : String := ""
  EventType : String := ""
  StateKey : Option String := none
  PrevEvents : PrevAuthValue := .nilValue
  AuthEvents : PrevAuthValue := .nilValue
  Redacts : String := ""
  Depth : Int := 0
  Content : Option JValue := none
  Unsigned : Option JValue := none
  deriving DecidableEq, Repr

/-- The marshalled form of the anonymous struct Build assembles, in struct
field order with the omitempty fields dropped when empty. -/
def buildFields (eb : EventBuilder) (eid : String) (now : Int) (origin : String)
    (pe ae : PrevAuthValue) (prevState : Option (List EventReference))
    (content : JValue) : List (String × JValue) :=
  marshalOptFields
    [("sender", some (.str eb.Sender)),
     ("room_id", some (.str eb.RoomID)),
     ("type", some (.str eb.EventType)),
     ("state_key", eb.StateKey.map JValue.str),
     ("prev_events", some pe.marshal),
     ("auth_events", some ae.marshal),
     ("redacts", if eb.Redacts = "" then none else some (.str eb.Redacts)),
     ("depth", some (.num eb.Depth)),
     ("content", some content),
     ("unsigned", eb.Unsigned),
     ("event_id", some (.str eid)),
     ("origin_server_ts", some (.num now)),
     ("origin", some (.str origin)),
     ("prev_state", prevState.map (fun l => .arr (l.map EventReference.marshal)))]

/-- EventBuilder.Build (event.go): resolve the formats, stamp id, origin
and timestamp, normalize the prev/auth representation per event format,
attach the legacy prev_state marker for state events, marshal, strip the
compact-format id, add content hashes, sign, canonicalize, parse and
validate.  randomStr stands for the random local part drawn for a
Random-format event id. -/
def EventBuilder.Build (sha : String → List Nat)
    (signJSON : String → String → String → JValue → Except String JValue)
    (eb : EventBuilder) (now : Int) (origin : String) (keyID privateKey : String)
    (randomStr : String) (v : RoomVersion) : Except String Event := do
  let eventFormat ← RoomVersion.eventFormatOf v
  let eventIDFormat ← RoomVersion.eventIDFormatOf v
  let eid := if eventIDFormat = EventIDFormat.V1
             then "$" ++ randomStr ++ ":" ++ origin else ""
  let pe := match eventFormat with
    | .V1 => match eb.PrevEvents with
             | .nilValue => PrevAuthValue.refs []
             | x => x
    | .V2 => PrevAuthValue.strs (match eb.PrevEvents with
             | .refs l => l.map (fun r => r.eventID)
             | _ => [])
  let ae := match eventFormat with
    | .V1 => match eb.AuthEvents with
             | .nilValue => PrevAuthValue.refs []
             | x => x
    | .V2 => PrevAuthValue.strs (match eb.AuthEvents with
             | .refs l => l.map (fun r => r.eventID)
             | _ => [])
  let prevState : Option (List EventReference) :=
    if eb.StateKey.isSome then some [] else none
  let content ← match eb.Content with
    | some c => pure c
    | none => Except.error "json: error calling MarshalJSON for type RawJSON"
  let j0 : JValue := .obj (buildFields eb eid now origin pe ae prevState content)
  let j1 := if eventFormat = EventFormat.V2 then jDelTop j0 "event_id" else j0
  let j2 ← addContentHashesToEvent sha j1
  let j3 ← signEvent signJSON origin keyID privateKey j2
  let j4 := canonicalize j3
  let e0 : Event := { roomVersion := v, eventJSON := some j4 }
  let e1 ← populateFieldsFromJSON sha e0 j4
  match e1.CheckFields with
  | .ok _ => .ok e1
  | .error er => .error er.message

theorem jLookup_eq_none_iff (fs : List (String × JValue)) (k : String) :
    jLookup fs k = none ↔ ¬k ∈ fs.map Prod.fst := by
  induction fs with
  | nil => simp [jLookup]
  | cons p ps ih =>
      obtain ⟨k1, v1⟩ := p
      simp only [jLookup, List.map_cons, List.mem_cons]
      by_cases h : k1 = k
      · subst h; simp
      · rw [if_neg h, ih]
        simp [Ne.symm h]

theorem jDel_map_fst_sublist (fs : List (String × JValue)) (k : String) :
    List.Sublist ((jDel fs k).map Prod.fst) (fs.map Prod.fst) := by
  induction fs with
  | nil => simp [jDel]
  | cons p ps ih =>
      obtain ⟨k1, v1⟩ := p
      by_cases h : k1 = k
      · simpa [jDel, h] using ih.cons k1
      · simpa [jDel, h] using ih.cons₂ k1

theorem jDel_nodup {fs : List (String × JValue)} (nd : (fs.map Prod.fst).Nodup)
    (k : String) : ((jDel fs k).map Prod.fst).Nodup :=
  (jDel_map_fst_sublist fs k).nodup nd

theorem jLookup_jDel_ne (fs : List (String × JValue)) {k k2 : String}
    (h : k2 ≠ k) : jLookup (jDel fs k) k2 = jLookup fs k2 := by
  induction fs with
  | nil => rfl
  | cons p ps ih =>
      obtain ⟨k1, v1⟩ := p
      by_cases h1 : k1 = k
      · subst h1
        rw [jDel, if_pos rfl, jLookup, if_neg (fun e => h e.symm)]
        exact ih
      · rw [jDel, if_neg h1, jLookup, jLookup]
        by_cases h2 : k1 = k2
        · rw [if_pos h2, if_pos h2]
        · rw [if_neg h2, if_neg h2]
          exact ih

theorem not_mem_jDel_self (fs : List (String × JValue)) (k : String) :
    ¬k ∈ (jDel fs k).map Prod.fst := by
  induction fs with
  | nil => simp [jDel]
  | cons p ps ih =>
      obtain ⟨k1, v1⟩ := p
      by_cases h : k1 = k
      · rw [jDel, if_pos h]; exact ih
      · rw [jDel, if_neg h]
        simp only [List.map_cons, List.mem_cons, not_or]
        exact ⟨fun e => h e.symm, ih⟩

theorem jLookup_jDel_self (fs : List (String × JValue)) (k : String) :
    jLookup (jDel fs k) k = none :=
  (jLookup_eq_none_iff _ k).mpr (not_mem_jDel_self fs k)

theorem jDel_of_lookup_none {fs : List (String × JValue)} {k : String}
    (h : jLookup fs k = none) : jDel fs k = fs := by
  induction fs with
  | nil => rfl
  | cons p ps ih =>
      obtain ⟨k1, v1⟩ := p
      by_cases h1 : k1 = k
      · rw [jLookup, if_pos h1] at h; exact absurd h (by simp)
      · rw [jLookup, if_neg h1] at h
        rw [jDel, if_neg h1, ih h]

theorem jSet_nodup {fs : List (String × JValue)} (nd : (fs.map Prod.fst).Nodup)
    (k : String) (v : JValue) : ((jSet fs k v).map Prod.fst).Nodup := by
  rw [jSet, List.map_append]
  refine List.Nodup.append (jDel_nodup nd k) (by simp) ?_
  intro a ha hb
  simp only [List.map_cons, List.map_nil, List.mem_singleton] at hb
  subst hb
  exact not_mem_jDel_self fs _ ha

theorem jLookup_jSet_self (fs : List (String × JValue)) (k : String) (v : JValue) :
    jLookup (jSet fs k v) k = some v := by
  rw [jSet, jLookup_append, jLookup_jDel_self]
  simp [jLookup]

theorem jLookup_jSet_ne (fs : List (String × JValue)) {k k2 : String}
    (h : k2 ≠ k) (v : JValue) : jLookup (jSet fs k v) k2 = jLookup fs k2 := by
  rw [jSet, jLookup_append, jLookup_jDel_ne fs h]
  cases hx : jLookup fs k2 with
  | some x => simp
  | none => simp [jLookup, Ne.symm h]

theorem sortPairs_nodup {fs : List (String × JValue)}
    (nd : (fs.map Prod.fst).Nodup) : ((sortPairs fs).map Prod.fst).Nodup :=
  (((sortPairs_perm fs).map Prod.fst).nodup_iff).mpr nd

theorem marshalOptFields_map_fst_sublist (entries : List (String × Option JValue)) :
    List.Sublist ((marshalOptFields entries).map Prod.fst) (entries.map Prod.fst) := by
  induction entries with
  | nil => simp [marshalOptFields]
  | cons p rest ih =>
      obtain ⟨k, v⟩ := p
      cases v with
      | some x => simpa [marshalOptFields, mkOpt] using ih.cons₂ k
      | none => simpa [marshalOptFields, mkOpt] using ih.cons k

instance {e a : Type} [DecidableEq e] [DecidableEq a] : DecidableEq (Except e a) :=
  fun x y =>
    match x, y with
    | .ok x1, .ok y1 => decidable_of_iff (x1 = y1) (by simp)
    | .error x1, .error y1 => decidable_of_iff (x1 = y1) (by simp)
    | .ok _, .error _ => isFalse (by simp)
    | .error _, .ok _ => isFalse (by simp)

/-- C1: for every event JSON input on which redaction succeeds, RedactEvent
keeps exactly the allow-list: every top-level key outside the fixed list is
dropped, each allow-listed top-level key is copied verbatim when present,
the content keeps exactly the keys allowed for the event type (for
m.room.power_levels exactly users, users_default, events, events_default,
state_default, ban, kick, redact; the empty list for types outside the
table), and the type is kept. -/
theorem RedactEvent_keeps_exactly_allowlist (fs : List (String × JValue))
    (r : JValue) (h : RedactEvent (.obj fs) = .ok r) :
    ∃ typ c,
      redactGetType fs = .ok typ ∧ redactGetContent fs = .ok c ∧
      r = .obj (redactTop fs typ (filterContentKeys (allowedContentKeys typ) c)) ∧
      (∀ k, ¬k ∈ redactTopKeys →
        jLookup (redactTop fs typ (filterContentKeys (allowedContentKeys typ) c)) k = none) ∧
      (∀ k, k ∈ redactTopRawKeys →
        jLookup (redactTop fs typ (filterContentKeys (allowedContentKeys typ) c)) k =
          jLookup fs k) ∧
      jLookup (redactTop fs typ (filterContentKeys (allowedContentKeys typ) c)) "content" =
        some (.obj (filterContentKeys (allowedContentKeys typ) c)) ∧
      (∀ ck, jLookup (filterContentKeys (allowedContentKeys typ) c) ck =
        if ck ∈ allowedContentKeys typ then jLookup c ck else none) ∧
      jLookup (redactTop fs typ (filterContentKeys (allowedContentKeys typ) c)) "type" =
        some (.str typ) ∧
      allowedContentKeys "m.room.power_levels" =
        ["users", "users_default", "events", "events_default", "state_default",
         "ban", "kick", "redact"] ∧
      (∀ t, ¬t ∈ ["m.room.create", "m.room.member", "m.room.join_rules",
          "m.room.power_levels", "m.room.history_visibility", "m.room.aliases"] →
        allowedContentKeys t = []) := by
  obtain ⟨typ, c, h1, h2, h3⟩ := RedactEvent_obj_eq h
  refine ⟨typ, c, h1, h2, h3,
    fun k hk => jLookup_redactTop_other fs typ _ k hk,
    fun k hk => jLookup_redactTop_raw fs typ _ k hk,
    jLookup_redactTop_content fs typ _,
    fun ck => jLookup_filterContentKeys (allowedContentKeys_nodup typ) c ck,
    jLookup_redactTop_type fs typ _, rfl, ?_⟩
  intro t ht
  simp only [List.mem_cons, List.not_mem_nil, or_false, not_or] at ht
  obtain ⟨n1, n2, n3, n4, n5, n6⟩ := ht
  simp [allowedContentKeys, n1, n2, n3, n4, n5, n6]

/-- Witness for C1: a room-power-levels event with an extra undeclared
content key and an unknown top-level key redacts to exactly the allow-listed
fields. -/
theorem RedactEvent_keeps_exactly_allowlist_witness :
    ∃ typ c,
      redactGetType
        [("content", .obj [("users", .obj [("a", .num 100)]), ("ban", .num 50),
            ("extra_key", .str "zap")]),
         ("event_id", .str "$e:org"), ("type", .str "m.room.power_levels"),
         ("unknown_top", .bool true), ("sender", .str "@a:org")] = .ok typ ∧
      redactGetContent
        [("content", .obj [("users", .obj [("a", .num 100)]), ("ban", .num 50),
            ("extra_key", .str "zap")]),
         ("event_id", .str "$e:org"), ("type", .str "m.room.power_levels"),
         ("unknown_top", .bool true), ("sender", .str "@a:org")] = .ok c ∧
      JValue.obj
        [("event_id", .str "$e:org"), ("sender", .str "@a:org"),
         ("content", .obj [("users", .obj [("a", .num 100)]), ("ban", .num 50)]),
         ("type", .str "m.room.power_levels")] =
        .obj (redactTop
          [("content", .obj [("users", .obj [("a", .num 100)]), ("ban", .num 50),
              ("extra_key", .str "zap")]),
           ("event_id", .str "$e:org"), ("type", .str "m.room.power_levels"),
           ("unknown_top", .bool true), ("sender", .str "@a:org")]
          typ (filterContentKeys (allowedContentKeys typ) c)) ∧
      (∀ k, ¬k ∈ redactTopKeys →
        jLookup (redactTop
          [("content", .obj [("users", .obj [("a", .num 100)]), ("ban", .num 50),
              ("extra_key", .str "zap")]),
           ("event_id", .str "$e:org"), ("type", .str "m.room.power_levels"),
           ("unknown_top", .bool true), ("sender", .str "@a:org")]
          typ (filterContentKeys (allowedContentKeys typ) c)) k = none) :=
  match RedactEvent_keeps_exactly_allowlist
    [("content", .obj [("users", .obj [("a", .num 100)]), ("ban", .num 50),
        ("extra_key", .str "zap")]),
     ("event_id", .str "$e:org"), ("type", .str "m.room.power_levels"),
     ("unknown_top", .bool true), ("sender", .str "@a:org")]
    (JValue.obj
      [("event_id", .str "$e:org"), ("sender", .str "@a:org"),
       ("content", .obj [("users", .obj [("a", .num 100)]), ("ban", .num 50)]),
       ("type", .str "m.room.power_levels")])
    (by decide) with
  | ⟨typ, c, h1, h2, h3, h4, _⟩ => ⟨typ, c, h1, h2, h3, h4⟩

/-- C9: redaction is idempotent, both at the byte level (a second
RedactEvent reproduces the first result unchanged) and at the Event level
(a second Event.Redact returns the first redacted copy unchanged, by the
redacted flag short-circuit). -/
theorem redaction_idempotent :
    (∀ j r, RedactEvent j = .ok r → RedactEvent r = .ok r) ∧
    (∀ e e2, Event.Redact e = .ok e2 → Event.Redact e2 = .ok e2) := by
  refine ⟨fun j r h => RedactEvent_idem h, fun e e2 h => ?_⟩
  by_cases hr : e.redacted
  · rw [Event.Redact, if_pos hr] at h
    cases h
    rw [Event.Redact, if_pos hr]
  · rw [Event.Redact, if_neg hr] at h
    cases hej : e.eventJSON with
    | none =>
        rw [hej] at h
        exact absurd h (by simp [Bind.bind, Except.bind])
    | some j =>
        rw [hej] at h
        simp only [Bind.bind, Except.bind, pure, Except.pure] at h
        cases hrj : RedactEvent j with
        | error er =>
            rw [hrj] at h
            exact absurd h (by simp)
        | ok rj =>
            rw [hrj] at h
            simp only [Except.ok.injEq] at h
            subst h
            rw [Event.Redact, if_pos rfl]

/-- Witness for C9: a concrete event redacts to a fixed point, and a
concrete Event value redacts to an Event that Redact leaves unchanged. -/
theorem redaction_idempotent_witness :
    RedactEvent
      (JValue.obj [("type", .str "x"), ("content", .obj [("a", .num 1)]),
        ("other", .null)]) =
      .ok (JValue.obj [("content", .obj []), ("type", .str "x")]) ∧
    RedactEvent (JValue.obj [("content", .obj []), ("type", .str "x")]) =
      .ok (JValue.obj [("content", .obj []), ("type", .str "x")]) ∧
    Event.Redact
      { redacted := false,
        eventJSON := some (JValue.obj [("type", .str "x"),
          ("content", .obj [("a", .num 1)]), ("other", .null)]),
        fields := none, roomVersion := "1" } =
      .ok { redacted := true,
            eventJSON := some (JValue.obj [("content", .obj []), ("type", .str "x")]),
            fields := some (.generic (JValue.obj [("content", .obj []), ("type", .str "x")])),
            roomVersion := "" } ∧
    Event.Redact
      { redacted := true,
        eventJSON := some (JValue.obj [("content", .obj []), ("type", .str "x")]),
        fields := some (.generic (JValue.obj [("content", .obj []), ("type", .str "x")])),
        roomVersion := "" } =
      .ok { redacted := true,
            eventJSON := some (JValue.obj [("content", .obj []), ("type", .str "x")]),
            fields := some (.generic (JValue.obj [("content", .obj []), ("type", .str "x")])),
            roomVersion := "" } :=
  ⟨by decide,
   redaction_idempotent.1
     (JValue.obj [("type", .str "x"), ("content", .obj [("a", .num 1)]),
       ("other", .null)])
     (JValue.obj [("content", .obj []), ("type", .str "x")]) (by decide),
   by decide,
   redaction_idempotent.2
     { redacted := false,
       eventJSON := some (JValue.obj [("type", .str "x"),
         ("content", .obj [("a", .num 1)]), ("other", .null)]),
       fields := none, roomVersion := "1" }
     { redacted := true,
       eventJSON := some (JValue.obj [("content", .obj []), ("type", .str "x")]),
       fields := some (.generic (JValue.obj [("content", .obj []), ("type", .str "x")])),
       roomVersion := "" } (by decide)⟩

/-- C3 (code bug): the derived events produced by Event.Redact and
Event.Sign do NOT carry the parent's room version — both constructors build
the new Event without copying roomVersion, so it is left at the zero value
"" (an unsupported version), and Event.Redact additionally replaces the
typed field projection by an untyped one.  Evaluated here at a concrete
version-1 event: both derived events come back with room version "". -/
theorem derived_events_drop_room_version :
    Except.map Event.roomVersion
      (Event.Redact
        { redacted := false,
          eventJSON := some (JValue.obj [("type", .str "x"),
            ("content", .obj [("a", .num 1)])]),
          fields := none, roomVersion := "1" }) = .ok "" ∧
    Except.map Event.roomVersion
      (Event.Sign
        (fun _ _ _ _ => .ok (.obj [("signatures",
          .obj [("org", .obj [("ed25519:1", .str "sig")])])]))
        { redacted := false,
          eventJSON := some (JValue.obj [("type", .str "x"),
            ("content", .obj [("a", .num 1)])]),
          fields := none, roomVersion := "1" }
        "org" "ed25519:1" "priv") = .ok "" ∧
    Except.map Event.fields
      (Event.Redact
        { redacted := false,
          eventJSON := some (JValue.obj [("type", .str "x"),
            ("content", .obj [("a", .num 1)])]),
          fields := none, roomVersion := "1" }) =
      .ok (some (.generic (JValue.obj [("content", .obj []), ("type", .str "x")]))) ∧
    ("1" : RoomVersion) ≠ "" := by
  refine ⟨by decide, by decide, by decide, by decide⟩

/-- Counterexample to C2: SetUnsignedField mutates its receiver in place —
after the call the receiver of this concrete event carries different
canonical bytes and a different parsed projection, so the mutation is
externally observable (and no new Event is returned: the method returns
only an error value). -/
theorem setUnsignedField_mutates_receiver :
    (Event.SetUnsignedField
      { redacted := false,
        eventJSON := some (JValue.obj [("content", .obj []), ("type", .str "x")]),
        fields := some (.v1 ⟨{ EventType := "x", Content := some (.obj []) }, some [], some []⟩),
        roomVersion := "1" }
      "k" (.str "v")).1 ≠
    { redacted := false,
      eventJSON := some (JValue.obj [("content", .obj []), ("type", .str "x")]),
      fields := some (.v1 ⟨{ EventType := "x", Content := some (.obj []) }, some [], some []⟩),
      roomVersion := "1" } := by decide

theorem updateUnsignedFields_preserves {e : Event} {u : Option JValue} {e2 : Event}
    (h : e.updateUnsignedFields u = .ok e2) :
    e2.eventJSON = e.eventJSON ∧ e2.redacted = e.redacted ∧
      e2.roomVersion = e.roomVersion := by
  unfold Event.updateUnsignedFields at h
  split at h <;> simp_all <;> subst h <;> simp

/-- C2 as amended: SetUnsigned returns a new Event value and leaves the
receiver's canonical bytes, redacted flag and room version unchanged, but
updates the receiver's parsed field projection in place (the returned copy
carries the new canonical bytes); SetUnsignedField returns only an error
and performs its update by mutating the receiver in place — on success the
receiver ends up with the new canonical bytes and the updated projection.
(Sign and Redact read but never assign through the receiver, so they mutate
nothing; they are pure functions of the receiver in this embedding.) -/
theorem setUnsigned_mutation_behavior :
    (∀ e u, (Event.SetUnsigned e u).1.eventJSON = e.eventJSON ∧
            (Event.SetUnsigned e u).1.redacted = e.redacted ∧
            (Event.SetUnsigned e u).1.roomVersion = e.roomVersion) ∧
    (∀ e u e2 res, Event.SetUnsigned e u = (e2, .ok res) →
       e.updateUnsignedFields (some u) = .ok e2 ∧
       ∃ j m, e.eventJSON = some j ∧ asMap j = .ok m ∧
         res = { e2 with eventJSON := some (canonicalize (marshalMap (jSet m "unsigned" u))) }) ∧
    (∀ e p v, (Event.SetUnsignedField e p v).2 = .ok () →
       ∃ e3, e.updateUnsignedFields
           (match canonicalize (jSetPath (e.eventJSON.getD .null)
               ("unsigned" :: (splitOnChar p.data '.').map String.mk) v) with
            | .obj fs => jLookup fs "unsigned"
            | _ => none) = .ok e3 ∧
         (Event.SetUnsignedField e p v).1 = { e3 with eventJSON := some (canonicalize (jSetPath (e.eventJSON.getD .null) ("unsigned" :: (splitOnChar p.data '.').map String.mk) v)) }) := by
  refine ⟨fun e u => ?_, fun e u e2 res h => ?_, fun e p v h => ?_⟩
  · unfold Event.SetUnsigned
    split
    · exact ⟨rfl, rfl, rfl⟩
    · split
      · exact ⟨rfl, rfl, rfl⟩
      · split
        · exact ⟨rfl, rfl, rfl⟩
        · rename_i e2 heq
          exact (updateUnsignedFields_preserves heq)
  · unfold Event.SetUnsigned at h
    cases hej : e.eventJSON with
    | none => rw [hej] at h; simp at h
    | some j =>
        rw [hej] at h
        dsimp only at h
        cases hm : asMap j with
        | error er => rw [hm] at h; simp at h
        | ok m =>
            rw [hm] at h
            dsimp only at h
            cases heq : e.updateUnsignedFields (some u) with
            | error er => rw [heq] at h; simp at h
            | ok e3 =>
                rw [heq] at h
                simp only [Prod.mk.injEq, Except.ok.injEq] at h
                obtain ⟨h1, h2⟩ := h
                subst h1
                exact ⟨rfl, j, m, rfl, hm, h2.symm⟩
  · unfold Event.SetUnsignedField at h ⊢
    dsimp only at h ⊢
    cases heq : e.updateUnsignedFields
        (match canonicalize (jSetPath (e.eventJSON.getD .null)
            ("unsigned" :: (splitOnChar p.data '.').map String.mk) v) with
         | .obj fs => jLookup fs "unsigned"
         | _ => none) with
    | error er => rw [heq] at h; simp at h
    | ok e3 =>
        rw [heq] at h
        exact ⟨e3, rfl, rfl⟩

/-- Witness for the amended C2: at a concrete event, SetUnsignedField
succeeds and the receiver afterwards holds the updated canonical bytes and
the projection updated through updateUnsignedFields. -/
theorem setUnsigned_mutation_behavior_witness :
    ∃ e3,
      Event.updateUnsignedFields
        { redacted := false,
          eventJSON := some (JValue.obj [("content", .obj []), ("type", .str "x")]),
          fields := some (.v1 ⟨{ EventType := "x", Content := some (.obj []) }, some [], some []⟩),
          roomVersion := "1" }
        (match canonicalize (jSetPath
            ((Event.eventJSON
              { redacted := false,
                eventJSON := some (JValue.obj [("content", .obj []), ("type", .str "x")]),
                fields := some (.v1 ⟨{ EventType := "x", Content := some (.obj []) }, some [], some []⟩),
                roomVersion := "1" }).getD .null)
            ("unsigned" :: (splitOnChar ("k" : String).data '.').map String.mk) (.str "v")) with
         | .obj fs => jLookup fs "unsigned"
         | _ => none) = .ok e3 ∧
      (Event.SetUnsignedField
        { redacted := false,
          eventJSON := some (JValue.obj [("content", .obj []), ("type", .str "x")]),
          fields := some (.v1 ⟨{ EventType := "x", Content := some (.obj []) }, some [], some []⟩),
          roomVersion := "1" } "k" (.str "v")).1 =
        { e3 with eventJSON := some (canonicalize (jSetPath
            ((Event.eventJSON
              { redacted := false,
                eventJSON := some (JValue.obj [("content", .obj []), ("type", .str "x")]),
                fields := some (.v1 ⟨{ EventType := "x", Content := some (.obj []) }, some [], some []⟩),
                roomVersion := "1" }).getD .null)
            ("unsigned" :: (splitOnChar ("k" : String).data '.').map String.mk) (.str "v"))) } :=
  setUnsigned_mutation_behavior.2.2
    { redacted := false,
      eventJSON := some (JValue.obj [("content", .obj []), ("type", .str "x")]),
      fields := some (.v1 ⟨{ EventType := "x", Content := some (.obj []) }, some [], some []⟩),
      roomVersion := "1" } "k" (.str "v") (by decide)

/-- C7 as amended: CheckFields enforces sender-domain-equals-origin only
under the Random event-id format (room versions 1 and 2): there, once the
earlier checks pass, a non-m.room.member event with a cross-domain sender
is rejected with the sender-domain-mismatch error and an m.room.member
event is accepted; under the other event-id formats the sender-domain
check is not performed at all. -/
theorem checkFields_sender_domain_policy :
    (∀ (e : Event) (f : eventFormatV1Fields) (senderDomain eventDomain : String)
       (pl al : List EventReference),
      e.fields = some (.v1 f) →
      f.PrevEvents = some pl → f.AuthEvents = some al →
      (match e.eventJSON with | some j => jByteLen j | none => 0) ≤ maxEventLength →
      f.base.EventType.utf8ByteSize ≤ maxIDLength →
      f.base.StateKey = none →
      (∃ d, checkID f.base.RoomID "room" '!' = .ok d) →
      checkID f.base.Sender "user" '@' = .ok senderDomain →
      RoomVersion.eventIDFormatOf e.roomVersion = .ok EventIDFormat.V1 →
      checkID f.base.EventID "event" '$' = .ok eventDomain →
      f.base.Origin = eventDomain →
      ((f.base.Origin ≠ senderDomain → f.base.EventType ≠ MRoomMember →
          Event.CheckFields e = .error (.senderDomainMismatch senderDomain f.base.Origin)) ∧
       (f.base.EventType = MRoomMember → Event.CheckFields e = .ok ()))) ∧
    (∀ (e : Event) (f : eventFormatV2Fields) (senderDomain : String)
       (pl al : List String) (fmt : EventIDFormat),
      e.fields = some (.v2 f) →
      f.PrevEvents = some pl → f.AuthEvents = some al →
      (match e.eventJSON with | some j => jByteLen j | none => 0) ≤ maxEventLength →
      f.base.EventType.utf8ByteSize ≤ maxIDLength →
      f.base.StateKey = none →
      (∃ d, checkID f.base.RoomID "room" '!' = .ok d) →
      checkID f.base.Sender "user" '@' = .ok senderDomain →
      RoomVersion.eventIDFormatOf e.roomVersion = .ok fmt →
      fmt ≠ EventIDFormat.V1 →
      Event.CheckFields e = .ok ()) := by
  constructor
  · intro e f senderDomain eventDomain pl al hf hpe hae hlen htyp hsk hroom hsender hver heid horig
    obtain ⟨d, hroomid⟩ := hroom
    have hlen2 : ¬(65536 < (match e.eventJSON with | some j => jByteLen j | none => 0)) := by
      simpa [maxEventLength] using Nat.not_lt.mpr hlen
    have htyp2 : ¬(255 < f.base.EventType.utf8ByteSize) := by
      simpa [maxIDLength] using Nat.not_lt.mpr htyp
    constructor
    · intro hOr hTy
      have hne : eventDomain ≠ senderDomain := horig ▸ hOr
      simp only [Event.CheckFields, hf, hpe, hae, hsk, hroomid, hsender, hver, heid,
        Bind.bind, Except.bind, pure, Except.pure, horig, maxEventLength, maxIDLength]
      try rw [if_neg hlen2]
      try rw [if_neg htyp2]
      simp [hne, hTy]
    · intro hTy
      rw [hTy] at htyp2
      simp only [Event.CheckFields, hf, hpe, hae, hsk, hroomid, hsender, hver, heid,
        Bind.bind, Except.bind, pure, Except.pure, horig, hTy, maxEventLength, maxIDLength]
      try rw [if_neg hlen2]
      try rw [if_neg htyp2]
      simp
  · intro e f senderDomain pl al fmt hf hpe hae hlen htyp hsk hroom hsender hver hfmt
    obtain ⟨d, hroomid⟩ := hroom
    have hlen2 : ¬(65536 < (match e.eventJSON with | some j => jByteLen j | none => 0)) := by
      simpa [maxEventLength] using Nat.not_lt.mpr hlen
    have htyp2 : ¬(255 < f.base.EventType.utf8ByteSize) := by
      simpa [maxIDLength] using Nat.not_lt.mpr htyp
    simp only [Event.CheckFields, hf, hpe, hae, hsk, hroomid, hsender, hver,
      Bind.bind, Except.bind, pure, Except.pure, maxEventLength, maxIDLength]
    try rw [if_neg hlen2]
    try rw [if_neg htyp2]
    simp [hfmt]

set_option maxRecDepth 8192 in
/-- Counterexample to C7 as stated: under room version 3 (a compact
event-id format) a trusted-parsed event whose sender domain "one" differs
from its origin "two" and whose type is not m.room.member passes
CheckFields without any domain-mismatch error — the sender-domain check is
only performed under the Random event-id format. -/
theorem checkFields_cross_domain_sender_accepted_v3 :
    Except.map Event.CheckFields
      (NewEventFromTrustedJSON (fun _ => [])
        (.obj [("auth_events", .arr []), ("content", .obj []), ("depth", .num 1),
          ("origin", .str "two"), ("origin_server_ts", .num 1),
          ("prev_events", .arr []), ("room_id", .str "!r:one"),
          ("sender", .str "@a:one"), ("type", .str "x")])
        false "3") = .ok (.ok ()) ∧
    Except.map Event.roomVersion
      (NewEventFromTrustedJSON (fun _ => [])
        (.obj [("auth_events", .arr []), ("content", .obj []), ("depth", .num 1),
          ("origin", .str "two"), ("origin_server_ts", .num 1),
          ("prev_events", .arr []), ("room_id", .str "!r:one"),
          ("sender", .str "@a:one"), ("type", .str "x")])
        false "3") = .ok "3" ∧
    domainFromID "@a:one" = some "one" ∧ ("two" : String) ≠ "one" ∧
    ("x" : String) ≠ MRoomMember := by
  refine ⟨by decide, by decide, by decide, by decide, by decide⟩

set_option maxRecDepth 8192 in
/-- Witness for the amended C7: a version-1 event with sender domain "one"
and origin "two" is rejected with the sender-domain-mismatch error. -/
theorem checkFields_sender_domain_policy_witness :
    Event.CheckFields
      { redacted := false, eventJSON := none,
        fields := some (.v1 ⟨{ EventID := "$e:two", RoomID := "!r:one", Sender := "@a:one", EventType := "x", Origin := "two" }, some [], some []⟩),
        roomVersion := "1" } =
      .error (.senderDomainMismatch "one" "two") :=
  (checkFields_sender_domain_policy.1
    { redacted := false, eventJSON := none,
      fields := some (.v1 ⟨{ EventID := "$e:two", RoomID := "!r:one", Sender := "@a:one", EventType := "x", Origin := "two" }, some [], some []⟩),
      roomVersion := "1" }
    ⟨{ EventID := "$e:two", RoomID := "!r:one", Sender := "@a:one", EventType := "x", Origin := "two" }, some [], some []⟩
    "one" "two" [] [] (by decide) (by decide) (by decide) (by decide)
    (by decide) (by decide) ⟨"one", by decide⟩ (by decide) (by decide)
    (by decide) (by decide)).1 (by decide) (by decide)

set_option maxRecDepth 8192 in
/-- Counterexample to C8 as stated: an event whose JSON has no prev_events
and no auth_events keys at all parses (trusted path, room version 1) with
the nil slices silently normalized to empty ones, and the field validator
then accepts it — it does not reject absent prev/auth fields. -/
theorem checkFields_accepts_absent_prev_auth :
    Except.map Event.CheckFields
      (NewEventFromTrustedJSON (fun _ => [])
        (.obj [("content", .obj []), ("depth", .num 1), ("event_id", .str "$e:org"),
          ("origin", .str "org"), ("origin_server_ts", .num 1),
          ("room_id", .str "!r:org"), ("sender", .str "@u:org"),
          ("type", .str "x")])
        false "1") = .ok (.ok ()) ∧
    jLookup [("content", .obj []), ("depth", .num 1), ("event_id", .str "$e:org"),
      ("origin", .str "org"), ("origin_server_ts", .num 1),
      ("room_id", .str "!r:org"), ("sender", .str "@u:org"),
      ("type", .str "x")] "prev_events" = none ∧
    jLookup [("content", .obj []), ("depth", .num 1), ("event_id", .str "$e:org"),
      ("origin", .str "org"), ("origin_server_ts", .num 1),
      ("room_id", .str "!r:org"), ("sender", .str "@u:org"),
      ("type", .str "x")] "auth_events" = none ∧
    Except.map (fun e => Event.fields e)
      (NewEventFromTrustedJSON (fun _ => [])
        (.obj [("content", .obj []), ("depth", .num 1), ("event_id", .str "$e:org"),
          ("origin", .str "org"), ("origin_server_ts", .num 1),
          ("room_id", .str "!r:org"), ("sender", .str "@u:org"),
          ("type", .str "x")])
        false "1") =
      .ok (some (.v1 ⟨{ EventID := "$e:org", RoomID := "!r:org", Sender := "@u:org", EventType := "x", Content := some (.obj []), Depth := 1, OriginServerTS := 1, Origin := "org" }, some [], some []⟩)) := by
  refine ⟨by decide, by decide, by decide, by decide⟩

/-- C8 as amended: CheckFields rejects an event exactly when its parsed
prev/auth slice is nil — but every parse path runs fixNilSlices first, so
events whose JSON lacks or nulls those fields come out with empty (non-nil)
slices and are accepted; any event accepted after parsing has both fields
present in its projection, possibly as empty arrays. -/
theorem checkFields_nil_prev_auth_policy :
    (∀ (e : Event) (f : eventFormatV1Fields), e.fields = some (.v1 f) →
       (f.PrevEvents = none ∨ f.AuthEvents = none) →
       Event.CheckFields e = .error .nilPrevAuth) ∧
    (∀ (e : Event) (f : eventFormatV2Fields), e.fields = some (.v2 f) →
       (f.PrevEvents = none ∨ f.AuthEvents = none) →
       Event.CheckFields e = .error .nilPrevAuth) ∧
    (∀ (sha : String → List Nat) (e : Event) (j : JValue) (e2 : Event),
       populateFieldsFromJSON sha e j = .ok e2 →
       (∀ f, e2.fields = some (.v1 f) → f.PrevEvents ≠ none ∧ f.AuthEvents ≠ none) ∧
       (∀ f, e2.fields = some (.v2 f) → f.PrevEvents ≠ none ∧ f.AuthEvents ≠ none)) := by
  refine ⟨fun e f hf hnil => ?_, fun e f hf hnil => ?_, fun sha e j e2 h => ?_⟩
  · have hcond : (f.AuthEvents = none ∨ f.PrevEvents = none) := hnil.symm
    simp only [Event.CheckFields, hf, Bind.bind, Except.bind]
    rw [if_pos hcond]
  · have hcond : (f.AuthEvents = none ∨ f.PrevEvents = none) := hnil.symm
    simp only [Event.CheckFields, hf, Bind.bind, Except.bind]
    rw [if_pos hcond]
  · unfold populateFieldsFromJSON at h
    cases hfmt : RoomVersion.eventFormatOf e.roomVersion with
    | error er => rw [hfmt] at h; simp [Bind.bind, Except.bind] at h
    | ok fmt =>
        rw [hfmt] at h
        simp only [Bind.bind, Except.bind, pure, Except.pure] at h
        cases fmt with
        | V1 =>
            cases hp : parseV1Fields j with
            | error er => rw [hp] at h; simp at h
            | ok flds =>
                rw [hp] at h
                simp only [Except.ok.injEq] at h
                subst h
                constructor
                · intro f hf
                  simp only [Option.some.injEq, EventFieldsAny.v1.injEq] at hf
                  subst hf
                  simp [eventFormatV1Fields.fixNilSlices]
                · intro f hf
                  simp at hf
        | V2 =>
            cases hp : parseV2Fields (jDelTop j "event_id") with
            | error er => rw [hp] at h; simp at h
            | ok flds =>
                rw [hp] at h
                cases hg : generateEventID sha e with
                | error er => rw [hg] at h; simp at h
                | ok eid =>
                    rw [hg] at h
                    simp only [Except.ok.injEq] at h
                    subst h
                    constructor
                    · intro f hf
                      simp at hf
                    · intro f hf
                      simp only [Option.some.injEq, EventFieldsAny.v2.injEq] at hf
                      subst hf
                      simp [eventFormatV2Fields.fixNilSlices]

/-- Witness for the amended C8: a directly-constructed Event whose parsed
v1 projection has a nil prev-events slice is rejected with the nil-slice
error. -/
theorem checkFields_nil_prev_auth_policy_witness :
    Event.CheckFields
      { redacted := false, eventJSON := none,
        fields := some (.v1 ⟨{}, none, some []⟩), roomVersion := "1" } =
      .error .nilPrevAuth :=
  checkFields_nil_prev_auth_policy.1
    { redacted := false, eventJSON := none,
      fields := some (.v1 ⟨{}, none, some []⟩), roomVersion := "1" }
    ⟨{}, none, some []⟩ (by decide) (Or.inl (by decide))

/-- Counterexample to C5 as stated: on an event that carries a signatures
key, the ingestion-time check hashes a different byte string than the
construction-time computation — checkEventContentHash removes signatures,
addContentHashesToEvent does not, so their input shapes differ. -/
theorem contentHashInput_shapes_differ :
    contentHashInputCheck (.obj [("signatures", .obj []), ("type", .str "x")]) ≠
    contentHashInputAdd (.obj [("signatures", .obj []), ("type", .str "x")]) := by
  decide

/-- C5 as amended: the content hash is the SHA-256 of the canonical form of
the unredacted event with exactly the unsigned and hashes keys removed and
is stored back under hashes.sha256, with every other key (unsigned
included) preserved; the ingestion-time check removes the signatures key in
addition, so its hash input coincides with the construction-time input
exactly on events with no signatures key (as at the point Build computes
the hash, before signing); the check fails exactly when the recomputed
hash differs from the declared hashes.sha256. -/
theorem contentHash_computation_policy :
    (∀ (j : JValue) (m : List (String × JValue)), asMap j = .ok m →
       jLookup m "signatures" = none →
       contentHashInputCheck j = contentHashInputAdd j) ∧
    (∀ (sha : String → List Nat) (j : JValue) (m : List (String × JValue))
       (input : String), asMap j = .ok m → (m.map Prod.fst).Nodup →
       contentHashInputAdd j = .ok input →
       ∃ out, addContentHashesToEvent sha j = .ok (.obj out) ∧
         jLookup out "hashes" =
           some (.obj [("sha256", .str (b64Encode false (sha input)))]) ∧
         (∀ k, k ≠ "hashes" → jLookup out k = jLookup m k)) ∧
    (∀ (sha : String → List Nat) (j : JValue) (d input : String),
       declaredContentHash j = .ok d →
       contentHashInputCheck j = .ok input →
       (checkEventContentHash sha j = .ok () ↔ b64Encode false (sha input) = d)) := by
  refine ⟨fun j m hm hsig => ?_, fun sha j m input hm hnd hinp => ?_,
    fun sha j d input hdecl hinp => ?_⟩
  · unfold contentHashInputCheck contentHashInputAdd
    rw [hm]
    simp only [Bind.bind, Except.bind, jDelKeys, List.foldl_cons, List.foldl_nil,
      jDel_of_lookup_none hsig]
  · unfold contentHashInputAdd at hinp
    rw [hm] at hinp
    simp only [Bind.bind, Except.bind, jDelKeys, List.foldl_cons, List.foldl_nil,
      Except.ok.injEq] at hinp
    unfold addContentHashesToEvent
    rw [hm]
    simp only [Bind.bind, Except.bind, jDelKeys, List.foldl_cons, List.foldl_nil,
      Except.ok.injEq, marshalMap]
    have hnd1 : (((jDel (jDel m "unsigned") "hashes").map Prod.fst)).Nodup :=
      jDel_nodup (jDel_nodup hnd "unsigned") "hashes"
    cases hu : jLookup m "unsigned" with
    | some u =>
        refine ⟨_, rfl, ?_, ?_⟩
        · rw [jLookup_sortPairs (jSet_nodup (jSet_nodup hnd1 "unsigned" u) "hashes" _),
            jLookup_jSet_self]
          rw [marshalMap] at hinp
          rw [hinp]
        · intro k hk
          rw [jLookup_sortPairs (jSet_nodup (jSet_nodup hnd1 "unsigned" u) "hashes" _),
            jLookup_jSet_ne _ hk]
          by_cases hku : k = "unsigned"
          · subst hku
            rw [jLookup_jSet_self, hu]
          · rw [jLookup_jSet_ne _ hku, jLookup_jDel_ne _ hk,
              jLookup_jDel_ne _ hku]
    | none =>
        refine ⟨_, rfl, ?_, ?_⟩
        · rw [jLookup_sortPairs (jSet_nodup hnd1 "hashes" _), jLookup_jSet_self]
          rw [marshalMap] at hinp
          rw [hinp]
        · intro k hk
          rw [jLookup_sortPairs (jSet_nodup hnd1 "hashes" _), jLookup_jSet_ne _ hk]
          by_cases hku : k = "unsigned"
          · subst hku
            rw [jLookup_jDel_ne _ hk, jLookup_jDel_self, hu]
          · rw [jLookup_jDel_ne _ hk, jLookup_jDel_ne _ hku]
  · unfold checkEventContentHash
    rw [hdecl, hinp]
    simp only [Bind.bind, Except.bind]
    by_cases hc : b64Encode false (sha input) = d
    · simp [hc]
    · simp [hc]

/-- Witness for the amended C5: with the trivial hash standing in for
SHA-256, the check on a concrete event succeeds exactly when the declared
base64 hash equals the recomputed one. -/
theorem contentHash_computation_policy_witness :
    (checkEventContentHash (fun _ => [0])
      (.obj [("hashes", .obj [("sha256", .str "AA")]), ("type", .str "x")]) = .ok () ↔
     b64Encode false ((fun (_ : String) => ([0] : List Nat)) "\x7b\"type\":\"x\"\x7d") = "AA") :=
  contentHash_computation_policy.2.2 (fun _ => [0])
    (.obj [("hashes", .obj [("sha256", .str "AA")]), ("type", .str "x")])
    "AA" "\x7b\"type\":\"x\"\x7d" (by decide) (by decide)

/-- C4: the reference hash of an event is the SHA-256 of the canonical form
of the redacted event with the signatures and unsigned keys removed, and
under the compact event-id formats (room versions 3, 4, 5) the event id
generated at parse time is "$" followed by the base64 encoding of that
hash — standard base64 for version 3, URL-safe base64 for versions 4
and 5. -/
theorem reference_hash_and_compact_event_id (sha : String → List Nat)
    (e : Event) (j : JValue) (digest : List Nat)
    (hj : e.eventJSON = some j)
    (hv : e.roomVersion = "3" ∨ e.roomVersion = "4" ∨ e.roomVersion = "5")
    (hhash : referenceHashOfEvent sha j = .ok digest) :
    (∃ rj m, RedactEvent j = .ok rj ∧ asMap rj = .ok m ∧
       digest = sha (serialize (canonicalize (marshalMap
         (jDel (jDel m "signatures") "unsigned"))))) ∧
    generateEventID sha e = .ok
      ("$" ++ (if e.roomVersion = "3" then b64Encode false digest
               else b64Encode true digest)) := by
  unfold referenceHashOfEvent at hhash
  cases hrj : RedactEvent j with
  | error er => rw [hrj] at hhash; simp [Bind.bind, Except.bind] at hhash
  | ok rj =>
      rw [hrj] at hhash
      simp only [Bind.bind, Except.bind] at hhash
      cases hm : asMap rj with
      | error er => rw [hm] at hhash; simp at hhash
      | ok m =>
          rw [hm] at hhash
          simp only [Except.ok.injEq, jDelKeys, List.foldl_cons, List.foldl_nil] at hhash
          refine ⟨⟨rj, m, rfl, hm, hhash.symm⟩, ?_⟩
          rcases hv with h3 | h4 | h5
          · rw [generateEventID, h3, hj, if_neg (by decide), if_pos (by decide),
              if_pos rfl]
            dsimp only
            unfold referenceOfEvent
            rw [hrj]
            simp only [Bind.bind, Except.bind]
            rw [hm]
            dsimp only [jDelKeys, List.foldl_cons, List.foldl_nil]
            rw [show RoomVersion.eventIDFormatOf "3" = Except.ok EventIDFormat.V2 from rfl]
            simp [Except.map, hhash]
          · rw [generateEventID, h4, hj, if_neg (by decide), if_pos (by decide),
              if_neg (by decide)]
            dsimp only
            unfold referenceOfEvent
            rw [hrj]
            simp only [Bind.bind, Except.bind]
            rw [hm]
            dsimp only [jDelKeys, List.foldl_cons, List.foldl_nil]
            rw [show RoomVersion.eventIDFormatOf "4" = Except.ok EventIDFormat.V3 from rfl]
            simp [Except.map, hhash]
          · rw [generateEventID, h5, hj, if_neg (by decide), if_pos (by decide),
              if_neg (by decide)]
            dsimp only
            unfold referenceOfEvent
            rw [hrj]
            simp only [Bind.bind, Except.bind]
            rw [hm]
            dsimp only [jDelKeys, List.foldl_cons, List.foldl_nil]
            rw [show RoomVersion.eventIDFormatOf "5" = Except.ok EventIDFormat.V3 from rfl]
            simp [Except.map, hhash]

/-- Witness for C4: a concrete room-version-4 event gets the URL-safe
base64 event id derived from its reference hash (the stand-in hash returns
the bytes 255, 254, 253, whose URL-safe encoding differs visibly from the
standard one). -/
theorem reference_hash_and_compact_event_id_witness :
    (∃ rj m, RedactEvent (JValue.obj [("type", .str "x"), ("content", .obj [])]) = .ok rj ∧
       asMap rj = .ok m ∧
       ([255, 254, 253] : List Nat) =
         (fun (_ : String) => ([255, 254, 253] : List Nat))
           (serialize (canonicalize (marshalMap (jDel (jDel m "signatures") "unsigned"))))) ∧
    generateEventID (fun _ => [255, 254, 253])
      { redacted := false,
        eventJSON := some (JValue.obj [("type", .str "x"), ("content", .obj [])]),
        fields := none, roomVersion := "4" } =
      .ok ("$" ++ (if ("4" : RoomVersion) = "3" then b64Encode false [255, 254, 253]
                   else b64Encode true [255, 254, 253])) :=
  reference_hash_and_compact_event_id (fun _ => [255, 254, 253])
    { redacted := false,
      eventJSON := some (JValue.obj [("type", .str "x"), ("content", .obj [])]),
      fields := none, roomVersion := "4" }
    (JValue.obj [("type", .str "x"), ("content", .obj [])])
    [255, 254, 253] (by decide) (Or.inr (Or.inl (by decide))) (by decide)

theorem populateFields_preserves {sha : String → List Nat} {e : Event}
    {j : JValue} {e2 : Event} (h : populateFieldsFromJSON sha e j = .ok e2) :
    e2.redacted = e.redacted ∧ e2.eventJSON = e.eventJSON ∧
      e2.roomVersion = e.roomVersion := by
  unfold populateFieldsFromJSON at h
  cases hfmt : RoomVersion.eventFormatOf e.roomVersion with
  | error er => rw [hfmt] at h; simp [Bind.bind, Except.bind] at h
  | ok fmt =>
      rw [hfmt] at h
      simp only [Bind.bind, Except.bind, pure, Except.pure] at h
      cases fmt with
      | V1 =>
          cases hp : parseV1Fields j with
          | error er => rw [hp] at h; simp at h
          | ok flds =>
              rw [hp] at h
              simp only [Except.ok.injEq] at h
              subst h
              exact ⟨rfl, rfl, rfl⟩
      | V2 =>
          cases hp : parseV2Fields (jDelTop j "event_id") with
          | error er => rw [hp] at h; simp at h
          | ok flds =>
              rw [hp] at h
              cases hg : generateEventID sha e with
              | error er => rw [hg] at h; simp at h
              | ok eid =>
                  rw [hg] at h
                  simp only [Except.ok.injEq] at h
                  subst h
                  exact ⟨rfl, rfl, rfl⟩

/-- C6: when NewEventFromUntrustedJSON finds that the declared content hash
does not match the recomputation, the mismatch is not returned as an error:
the result (when the remaining steps succeed) is an Event whose redacted
flag is set, whose bytes are the canonicalized redacted form, and whose
field projection is reparsed from those bytes exactly when they differ from
the pre-redaction bytes — the branch keeps the original projection when
redaction was a byte-level no-op. -/
theorem untrusted_hash_mismatch_redacts (sha : String → List Nat)
    (j : JValue) (v : RoomVersion) (fmt : EventFormat) (msg : String)
    (e1 : Event) (j1 j3 rj rj2 : JValue) (e2 : Event)
    (hfmt : RoomVersion.eventFormatOf v = .ok fmt)
    (hj1 : j1 = (if fmt = EventFormat.V2 then jDelTop j "event_id" else j))
    (h1 : populateFieldsFromJSON sha { roomVersion := v } j1 = .ok e1)
    (hj3 : j3 = canonicalize (jDelTop (jDelTop (jDelTop j1 "outlier") "destinations") "age_ts"))
    (hmiss : checkEventContentHash sha j3 = .error msg)
    (hred : RedactEvent j3 = .ok rj)
    (hrj2 : rj2 = canonicalize rj)
    (he2 : (if rj2 = j3 then Except.ok { e1 with redacted := true }
            else NewEventFromTrustedJSON sha rj2 true v) = .ok e2)
    (hcf : Event.CheckFields { e2 with eventJSON := some rj2 } = .ok ()) :
    NewEventFromUntrustedJSON sha j v = .ok { e2 with eventJSON := some rj2 } ∧
    e2.redacted = true ∧
    (rj2 = j3 → e2.fields = e1.fields) ∧
    (rj2 ≠ j3 → NewEventFromTrustedJSON sha rj2 true v = .ok e2) := by
  have hredflag : e2.redacted = true ∧ (rj2 = j3 → e2.fields = e1.fields) ∧
      (rj2 ≠ j3 → NewEventFromTrustedJSON sha rj2 true v = .ok e2) := by
    by_cases hif : rj2 = j3
    · rw [if_pos hif] at he2
      simp only [Except.ok.injEq] at he2
      subst he2
      exact ⟨rfl, fun _ => rfl, fun hne => absurd hif hne⟩
    · rw [if_neg hif] at he2
      refine ⟨?_, fun heq => absurd heq hif, fun _ => he2⟩
      unfold NewEventFromTrustedJSON at he2
      exact (populateFields_preserves he2).1
  refine ⟨?_, hredflag⟩
  unfold NewEventFromUntrustedJSON
  rw [hfmt]
  simp only [Bind.bind, Except.bind, pure, Except.pure]
  rw [← hj1, h1]
  dsimp only
  rw [← hj3]
  rw [hmiss, hred]
  dsimp only
  rw [← hrj2]
  by_cases hif : rj2 = j3
  · rw [if_pos hif] at he2
    simp only [Except.ok.injEq] at he2
    subst he2
    rw [if_pos hif]
    simp only at hcf ⊢
    rw [hcf]
  · rw [if_neg hif] at he2
    rw [if_neg hif, he2]
    simp only
    rw [hcf]

set_option maxRecDepth 16384 in
/-- Witness for C6: a concrete version-1 event with a wrong declared
content hash ingests without error into a redacted Event whose bytes are
the canonicalized redacted form and whose projection was reparsed from
them. -/
theorem untrusted_hash_mismatch_redacts_witness :
    NewEventFromUntrustedJSON (fun _ => [0])
      (.obj [("auth_events", .arr []), ("content", .obj [("body", .str "hi")]),
        ("depth", .num 1), ("event_id", .str "$e:org"),
        ("hashes", .obj [("sha256", .str "BAD")]), ("origin", .str "org"),
        ("origin_server_ts", .num 1), ("prev_events", .arr []),
        ("room_id", .str "!r:org"), ("sender", .str "@u:org"), ("type", .str "x")])
      "1" =
      .ok { redacted := true,
            eventJSON := some (.obj [("auth_events", .arr []), ("content", .obj []),
              ("depth", .num 1), ("event_id", .str "$e:org"),
              ("hashes", .obj [("sha256", .str "BAD")]), ("origin", .str "org"),
              ("origin_server_ts", .num 1), ("prev_events", .arr []),
              ("room_id", .str "!r:org"), ("sender", .str "@u:org"), ("type", .str "x")]),
            fields := some (.v1 ⟨{ EventID := "$e:org", RoomID := "!r:org", Sender := "@u:org", EventType := "x", Content := some (.obj []), Depth := 1, OriginServerTS := 1, Origin := "org" }, some [], some []⟩),
            roomVersion := "1" } ∧
    ({ redacted := true,
       eventJSON := some (.obj [("auth_events", .arr []), ("content", .obj []),
         ("depth", .num 1), ("event_id", .str "$e:org"),
         ("hashes", .obj [("sha256", .str "BAD")]), ("origin", .str "org"),
         ("origin_server_ts", .num 1), ("prev_events", .arr []),
         ("room_id", .str "!r:org"), ("sender", .str "@u:org"), ("type", .str "x")]),
       fields := some (.v1 ⟨{ EventID := "$e:org", RoomID := "!r:org", Sender := "@u:org", EventType := "x", Content := some (.obj []), Depth := 1, OriginServerTS := 1, Origin := "org" }, some [], some []⟩),
       roomVersion := "1" } : Event).redacted = true ∧
    ((.obj [("auth_events", .arr []), ("content", .obj []),
        ("depth", .num 1), ("event_id", .str "$e:org"),
        ("hashes", .obj [("sha256", .str "BAD")]), ("origin", .str "org"),
        ("origin_server_ts", .num 1), ("prev_events", .arr []),
        ("room_id", .str "!r:org"), ("sender", .str "@u:org"), ("type", .str "x")] : JValue) =
      (.obj [("auth_events", .arr []), ("content", .obj [("body", .str "hi")]),
        ("depth", .num 1), ("event_id", .str "$e:org"),
        ("hashes", .obj [("sha256", .str "BAD")]), ("origin", .str "org"),
        ("origin_server_ts", .num 1), ("prev_events", .arr []),
        ("room_id", .str "!r:org"), ("sender", .str "@u:org"), ("type", .str "x")] : JValue) →
      ({ redacted := true,
         eventJSON := some (.obj [("auth_events", .arr []), ("content", .obj []),
           ("depth", .num 1), ("event_id", .str "$e:org"),
           ("hashes", .obj [("sha256", .str "BAD")]), ("origin", .str "org"),
           ("origin_server_ts", .num 1), ("prev_events", .arr []),
           ("room_id", .str "!r:org"), ("sender", .str "@u:org"), ("type", .str "x")]),
         fields := some (.v1 ⟨{ EventID := "$e:org", RoomID := "!r:org", Sender := "@u:org", EventType := "x", Content := some (.obj []), Depth := 1, OriginServerTS := 1, Origin := "org" }, some [], some []⟩),
         roomVersion := "1" } : Event).fields =
      ({ redacted := false, eventJSON := none,
         fields := some (.v1 ⟨{ EventID := "$e:org", RoomID := "!r:org", Sender := "@u:org", EventType := "x", Content := some (.obj [("body", .str "hi")]), Depth := 1, OriginServerTS := 1, Origin := "org" }, some [], some []⟩),
         roomVersion := "1" } : Event).fields) ∧
    ((.obj [("auth_events", .arr []), ("content", .obj []),
        ("depth", .num 1), ("event_id", .str "$e:org"),
        ("hashes", .obj [("sha256", .str "BAD")]), ("origin", .str "org"),
        ("origin_server_ts", .num 1), ("prev_events", .arr []),
        ("room_id", .str "!r:org"), ("sender", .str "@u:org"), ("type", .str "x")] : JValue) ≠
      (.obj [("auth_events", .arr []), ("content", .obj [("body", .str "hi")]),
        ("depth", .num 1), ("event_id", .str "$e:org"),
        ("hashes", .obj [("sha256", .str "BAD")]), ("origin", .str "org"),
        ("origin_server_ts", .num 1), ("prev_events", .arr []),
        ("room_id", .str "!r:org"), ("sender", .str "@u:org"), ("type", .str "x")] : JValue) →
      NewEventFromTrustedJSON (fun _ => [0])
        (.obj [("auth_events", .arr []), ("content", .obj []),
          ("depth", .num 1), ("event_id", .str "$e:org"),
          ("hashes", .obj [("sha256", .str "BAD")]), ("origin", .str "org"),
          ("origin_server_ts", .num 1), ("prev_events", .arr []),
          ("room_id", .str "!r:org"), ("sender", .str "@u:org"), ("type", .str "x")])
        true "1" =
      .ok { redacted := true,
            eventJSON := some (.obj [("auth_events", .arr []), ("content", .obj []),
              ("depth", .num 1), ("event_id", .str "$e:org"),
              ("hashes", .obj [("sha256", .str "BAD")]), ("origin", .str "org"),
              ("origin_server_ts", .num 1), ("prev_events", .arr []),
              ("room_id", .str "!r:org"), ("sender", .str "@u:org"), ("type", .str "x")]),
            fields := some (.v1 ⟨{ EventID := "$e:org", RoomID := "!r:org", Sender := "@u:org", EventType := "x", Content := some (.obj []), Depth := 1, OriginServerTS := 1, Origin := "org" }, some [], some []⟩),
            roomVersion := "1" }) :=
  untrusted_hash_mismatch_redacts (fun _ => [0])
    (.obj [("auth_events", .arr []), ("content", .obj [("body", .str "hi")]),
      ("depth", .num 1), ("event_id", .str "$e:org"),
      ("hashes", .obj [("sha256", .str "BAD")]), ("origin", .str "org"),
      ("origin_server_ts", .num 1), ("prev_events", .arr []),
      ("room_id", .str "!r:org"), ("sender", .str "@u:org"), ("type", .str "x")])
    "1" EventFormat.V1 "Invalid Sha256 content hash"
    { redacted := false, eventJSON := none,
      fields := some (.v1 ⟨{ EventID := "$e:org", RoomID := "!r:org", Sender := "@u:org", EventType := "x", Content := some (.obj [("body", .str "hi")]), Depth := 1, OriginServerTS := 1, Origin := "org" }, some [], some []⟩),
      roomVersion := "1" }
    (.obj [("auth_events", .arr []), ("content", .obj [("body", .str "hi")]),
      ("depth", .num 1), ("event_id", .str "$e:org"),
      ("hashes", .obj [("sha256", .str "BAD")]), ("origin", .str "org"),
      ("origin_server_ts", .num 1), ("prev_events", .arr []),
      ("room_id", .str "!r:org"), ("sender", .str "@u:org"), ("type", .str "x")])
    (.obj [("auth_events", .arr []), ("content", .obj [("body", .str "hi")]),
      ("depth", .num 1), ("event_id", .str "$e:org"),
      ("hashes", .obj [("sha256", .str "BAD")]), ("origin", .str "org"),
      ("origin_server_ts", .num 1), ("prev_events", .arr []),
      ("room_id", .str "!r:org"), ("sender", .str "@u:org"), ("type", .str "x")])
    (.obj [("event_id", .str "$e:org"), ("sender", .str "@u:org"),
      ("room_id", .str "!r:org"), ("hashes", .obj [("sha256", .str "BAD")]),
      ("content", .obj []), ("type", .str "x"), ("depth", .num 1),
      ("prev_events", .arr []), ("auth_events", .arr []),
      ("origin", .str "org"), ("origin_server_ts", .num 1)])
    (.obj [("auth_events", .arr []), ("content", .obj []),
      ("depth", .num 1), ("event_id", .str "$e:org"),
      ("hashes", .obj [("sha256", .str "BAD")]), ("origin", .str "org"),
      ("origin_server_ts", .num 1), ("prev_events", .arr []),
      ("room_id", .str "!r:org"), ("sender", .str "@u:org"), ("type", .str "x")])
    { redacted := true,
      eventJSON := some (.obj [("auth_events", .arr []), ("content", .obj []),
        ("depth", .num 1), ("event_id", .str "$e:org"),
        ("hashes", .obj [("sha256", .str "BAD")]), ("origin", .str "org"),
        ("origin_server_ts", .num 1), ("prev_events", .arr []),
        ("room_id", .str "!r:org"), ("sender", .str "@u:org"), ("type", .str "x")]),
      fields := some (.v1 ⟨{ EventID := "$e:org", RoomID := "!r:org", Sender := "@u:org", EventType := "x", Content := some (.obj []), Depth := 1, OriginServerTS := 1, Origin := "org" }, some [], some []⟩),
      roomVersion := "1" }
    (by decide) (by decide) (by decide) (by decide) (by decide) (by decide)
    (by decide) (by decide) (by decide)

/-- Adding content hashes rewrites only the hashes key: every other key of
the event keeps its value, and the result is an object with duplicate-free
keys. -/
theorem addContentHashes_preserves {sha : String → List Nat}
    {m : List (String × JValue)} {r : JValue}
    (nd : (m.map Prod.fst).Nodup)
    (h : addContentHashesToEvent sha (.obj m) = .ok r) :
    ∃ out, r = .obj out ∧ ((out.map Prod.fst).Nodup) ∧
      (∀ k, k ≠ "hashes" → jLookup out k = jLookup m k) := by
  unfold addContentHashesToEvent at h
  rw [show asMap (JValue.obj m) = Except.ok m from rfl] at h
  simp only [Bind.bind, Except.bind, jDelKeys, List.foldl_cons, List.foldl_nil,
    Except.ok.injEq, marshalMap] at h
  have hnd1 : ((jDel (jDel m "unsigned") "hashes").map Prod.fst).Nodup :=
    jDel_nodup (jDel_nodup nd "unsigned") "hashes"
  cases hu : jLookup m "unsigned" with
  | some u =>
      rw [hu] at h
      refine ⟨_, h.symm, sortPairs_nodup (jSet_nodup (jSet_nodup hnd1 "unsigned" u) "hashes" _), ?_⟩
      intro k hk
      rw [jLookup_sortPairs (jSet_nodup (jSet_nodup hnd1 "unsigned" u) "hashes" _),
        jLookup_jSet_ne _ hk]
      by_cases hku : k = "unsigned"
      · subst hku
        rw [jLookup_jSet_self, hu]
      · rw [jLookup_jSet_ne _ hku, jLookup_jDel_ne _ hk, jLookup_jDel_ne _ hku]
  | none =>
      rw [hu] at h
      refine ⟨_, h.symm, sortPairs_nodup (jSet_nodup hnd1 "hashes" _), ?_⟩
      intro k hk
      rw [jLookup_sortPairs (jSet_nodup hnd1 "hashes" _), jLookup_jSet_ne _ hk]
      by_cases hku : k = "unsigned"
      · subst hku
        rw [jLookup_jDel_ne _ hk, jLookup_jDel_self, hu]
      · rw [jLookup_jDel_ne _ hk, jLookup_jDel_ne _ hku]

/-- Signing rewrites only the signatures key: every other key of the event
keeps its value, and the result is an object with duplicate-free keys. -/
theorem signEvent_preserves
    {signJSON : String → String → String → JValue → Except String JValue}
    {signingName keyID privateKey : String}
    {m : List (String × JValue)} {r : JValue}
    (nd : (m.map Prod.fst).Nodup)
    (h : signEvent signJSON signingName keyID privateKey (.obj m) = .ok r) :
    ∃ out, r = .obj out ∧ ((out.map Prod.fst).Nodup) ∧
      (∀ k, k ≠ "signatures" → jLookup out k = jLookup m k) := by
  unfold signEvent at h
  cases hrj : RedactEvent (JValue.obj m) with
  | error er => rw [hrj] at h; simp [Bind.bind, Except.bind] at h
  | ok rj =>
      rw [hrj] at h
      simp only [Bind.bind, Except.bind] at h
      cases hs : signJSON signingName keyID privateKey rj with
      | error er => rw [hs] at h; simp at h
      | ok sj =>
          rw [hs] at h
          have hfin : ∀ (sigVal : JValue),
              (Except.ok (marshalMap (jSet m "signatures" sigVal)) : Except String JValue) = .ok r →
              ∃ out, r = .obj out ∧ ((out.map Prod.fst).Nodup) ∧
                (∀ k, k ≠ "signatures" → jLookup out k = jLookup m k) := by
            intro sigVal hr
            simp only [Except.ok.injEq, marshalMap] at hr
            refine ⟨_, hr.symm, sortPairs_nodup (jSet_nodup nd "signatures" sigVal), ?_⟩
            intro k hk
            rw [jLookup_sortPairs (jSet_nodup nd "signatures" sigVal),
              jLookup_jSet_ne _ hk]
          cases sj with
          | obj sfs =>
              simp only [pure, Except.pure] at h
              cases hsig : jLookup sfs "signatures" with
              | some sv =>
                  rw [hsig] at h
                  simp only [Bind.bind, Except.bind] at h
                  rw [show asMap (JValue.obj m) = Except.ok m from rfl] at h
                  exact hfin sv h
              | none => rw [hsig] at h; simp [Bind.bind, Except.bind] at h
          | null => simp [pure, Except.pure, Bind.bind, Except.bind] at h
          | bool b => simp at h
          | num n => simp at h
          | str s => simp at h
          | arr xs => simp at h

/-- Canonicalizing a list of JSON strings leaves it unchanged. -/
theorem canonicalizeList_map_str (l : List String) :
    canonicalizeList (l.map JValue.str) = l.map JValue.str := by
  induction l with
  | nil => rfl
  | cons s rest ih => simp [canonicalizeList, canonicalize, ih]

/-- Canonicalizing an array of JSON strings leaves it unchanged. -/
theorem canonicalize_arr_str (l : List String) :
    canonicalize (.arr (l.map JValue.str)) = .arr (l.map JValue.str) := by
  rw [show canonicalize (.arr (l.map JValue.str)) =
    .arr (canonicalizeList (l.map JValue.str)) from rfl, canonicalizeList_map_str]

theorem jLookup_buildFields_prev (eb : EventBuilder) (eid : String) (now : Int)
    (origin : String) (pe ae : PrevAuthValue)
    (prevState : Option (List EventReference)) (content : JValue) :
    jLookup (buildFields eb eid now origin pe ae prevState content) "prev_events" =
      some pe.marshal := by
  rw [buildFields,
    jLookup_marshalOptFields (by simp only [List.map_cons, List.map_nil]; decide)]
  simp [entryLookup]

theorem jLookup_buildFields_auth (eb : EventBuilder) (eid : String) (now : Int)
    (origin : String) (pe ae : PrevAuthValue)
    (prevState : Option (List EventReference)) (content : JValue) :
    jLookup (buildFields eb eid now origin pe ae prevState content) "auth_events" =
      some ae.marshal := by
  rw [buildFields,
    jLookup_marshalOptFields (by simp only [List.map_cons, List.map_nil]; decide)]
  simp [entryLookup]

theorem buildFields_nodup (eb : EventBuilder) (eid : String) (now : Int)
    (origin : String) (pe ae : PrevAuthValue)
    (prevState : Option (List EventReference)) (content : JValue) :
    (((buildFields eb eid now origin pe ae prevState content)).map Prod.fst).Nodup :=
  (marshalOptFields_map_fst_sublist _).nodup
    (by simp only [List.map_cons, List.map_nil]; decide)

/-- C10: when Build runs under a compact (EventFormatV2) room version, the
built event's prev_events and auth_events are the flattened id arrays of a
[]EventReference input, and the empty array for every other input — a
[]string of bare ids or a nil interface is silently replaced by [], not
preserved and not rejected. -/
theorem build_v2_replaces_non_reference_prev_auth (sha : String → List Nat)
    (signJSON : String → String → String → JValue → Except String JValue)
    (eb : EventBuilder) (now : Int) (origin keyID privateKey randomStr : String)
    (v : RoomVersion) (e : Event)
    (hfmt : RoomVersion.eventFormatOf v = .ok EventFormat.V2)
    (hb : EventBuilder.Build sha signJSON eb now origin keyID privateKey randomStr v = .ok e) :
    ∃ out, e.eventJSON = some (.obj out) ∧
      jLookup out "prev_events" =
        some (.arr ((match eb.PrevEvents with
                     | PrevAuthValue.refs l => l.map (fun (r : EventReference) => r.eventID)
                     | _ => []).map JValue.str)) ∧
      jLookup out "auth_events" =
        some (.arr ((match eb.AuthEvents with
                     | PrevAuthValue.refs l => l.map (fun (r : EventReference) => r.eventID)
                     | _ => []).map JValue.str)) ∧
      (∀ l, eb.PrevEvents = PrevAuthValue.strs l →
        jLookup out "prev_events" = some (.arr [])) ∧
      (eb.PrevEvents = PrevAuthValue.nilValue →
        jLookup out "prev_events" = some (.arr [])) := by
  unfold EventBuilder.Build at hb
  rw [hfmt] at hb
  simp only [Bind.bind, Except.bind] at hb
  cases hidf : RoomVersion.eventIDFormatOf v with
  | error er => rw [hidf] at hb; simp at hb
  | ok idf =>
      rw [hidf] at hb
      dsimp only at hb
      cases hc : eb.Content with
      | none => rw [hc] at hb; simp [Bind.bind, Except.bind] at hb
      | some content =>
          rw [hc] at hb
          simp only [pure, Except.pure, Bind.bind, Except.bind, if_true] at hb
          dsimp only [jDelTop] at hb
          cases h2 : addContentHashesToEvent sha
              (JValue.obj (jDel
                (buildFields eb
                  (if idf = EventIDFormat.V1 then "$" ++ randomStr ++ ":" ++ origin else "")
                  now origin
                  (PrevAuthValue.strs (match eb.PrevEvents with
                    | PrevAuthValue.refs l => List.map (fun r => r.eventID) l
                    | _ => []))
                  (PrevAuthValue.strs (match eb.AuthEvents with
                    | PrevAuthValue.refs l => List.map (fun r => r.eventID) l
                    | _ => []))
                  (if eb.StateKey.isSome = true then some [] else none) content)
                "event_id")) with
          | error er => rw [h2] at hb; simp at hb
          | ok j2 =>
              rw [h2] at hb
              dsimp only at hb
              cases h3 : signEvent signJSON origin keyID privateKey j2 with
              | error er => rw [h3] at hb; simp at hb
              | ok j3 =>
                  rw [h3] at hb
                  dsimp only at hb
                  cases h4 : populateFieldsFromJSON sha
                      { redacted := false, eventJSON := some (canonicalize j3),
                        fields := none, roomVersion := v } (canonicalize j3) with
                  | error er => rw [h4] at hb; simp at hb
                  | ok e1 =>
                      rw [h4] at hb
                      dsimp only at hb
                      cases h5 : e1.CheckFields with
                      | error er => rw [h5] at hb; simp at hb
                      | ok u =>
                          rw [h5] at hb
                          simp only [Except.ok.injEq] at hb
                          subst hb
                          have hnd0 := buildFields_nodup eb
                            (if idf = EventIDFormat.V1 then "$" ++ randomStr ++ ":" ++ origin else "")
                            now origin
                            (PrevAuthValue.strs (match eb.PrevEvents with
                              | PrevAuthValue.refs l => List.map (fun r => r.eventID) l
                              | _ => []))
                            (PrevAuthValue.strs (match eb.AuthEvents with
                              | PrevAuthValue.refs l => List.map (fun r => r.eventID) l
                              | _ => []))
                            (if eb.StateKey.isSome = true then some [] else none) content
                          have hnd1 := jDel_nodup hnd0 "event_id"
                          obtain ⟨out2, hj2eq, hnd2, hpres2⟩ :=
                            addContentHashes_preserves hnd1 h2
                          subst hj2eq
                          obtain ⟨out3, hj3eq, hnd3, hpres3⟩ :=
                            signEvent_preserves hnd2 h3
                          subst hj3eq
                          refine ⟨sortPairs (canonicalizeFields out3), ?_, ?_, ?_, ?_, ?_⟩
                          · exact (populateFields_preserves h4).2.1
                          · rw [jLookup_canonicalize_obj hnd3,
                              hpres3 "prev_events" (by decide),
                              hpres2 "prev_events" (by decide),
                              jLookup_jDel_ne _ (by decide),
                              jLookup_buildFields_prev]
                            dsimp only [PrevAuthValue.marshal]
                            rw [Option.map_some', canonicalize_arr_str]
                          · rw [jLookup_canonicalize_obj hnd3,
                              hpres3 "auth_events" (by decide),
                              hpres2 "auth_events" (by decide),
                              jLookup_jDel_ne _ (by decide),
                              jLookup_buildFields_auth]
                            dsimp only [PrevAuthValue.marshal]
                            rw [Option.map_some', canonicalize_arr_str]
                          · intro l hl
                            rw [jLookup_canonicalize_obj hnd3,
                              hpres3 "prev_events" (by decide),
                              hpres2 "prev_events" (by decide),
                              jLookup_jDel_ne _ (by decide),
                              jLookup_buildFields_prev, hl]
                            dsimp only [PrevAuthValue.marshal]
                            rw [Option.map_some']
                            simp only [List.map_nil]
                            rw [show canonicalize (JValue.arr []) = JValue.arr [] from rfl]
                          · intro hl
                            rw [jLookup_canonicalize_obj hnd3,
                              hpres3 "prev_events" (by decide),
                              hpres2 "prev_events" (by decide),
                              jLookup_jDel_ne _ (by decide),
                              jLookup_buildFields_prev, hl]
                            dsimp only [PrevAuthValue.marshal]
                            rw [Option.map_some']
                            simp only [List.map_nil]
                            rw [show canonicalize (JValue.arr []) = JValue.arr [] from rfl]

/-- A stand-in hash for the Build witness: every input hashes to the empty
digest. -/
def c10sha : String → List Nat := fun _ => []

/-- A stand-in SignJSON for the Build witness: signing returns the event
unchanged. -/
def c10sign : String → String → String → JValue → Except String JValue :=
  fun _ _ _ _ => .ok (.obj [("signatures", .obj [])])

/-- A builder carrying a []string PrevEvents value and a nil AuthEvents
value, the shapes Build's compact path silently replaces. -/
def c10eb : EventBuilder :=
  { Sender := "@u:org", RoomID := "!r:org", EventType := "x",
    Content := some (.obj []), PrevEvents := .strs ["$a"],
    AuthEvents := .nilValue }

/-- The event Build produces from c10eb under room version 3. -/
def c10event : Event :=
  match EventBuilder.Build c10sha c10sign c10eb 0 "org" "k" "p" "r" "3" with
  | .ok e => e
  | .error _ => {}

set_option maxRecDepth 16384 in
/-- Witness for C10: room version 3 uses the compact event format, Build
succeeds on c10eb, and the built event's prev_events ([]string input) and
auth_events (nil input) both come out as the empty array. -/
theorem build_v2_replaces_non_reference_prev_auth_witness :
    RoomVersion.eventFormatOf "3" = Except.ok EventFormat.V2 ∧
    EventBuilder.Build c10sha c10sign c10eb 0 "org" "k" "p" "r" "3" =
      Except.ok c10event ∧
    ∃ out, c10event.eventJSON = some (.obj out) ∧
      jLookup out "prev_events" =
        some (.arr ((match c10eb.PrevEvents with
                     | PrevAuthValue.refs l => l.map (fun (r : EventReference) => r.eventID)
                     | _ => []).map JValue.str)) ∧
      jLookup out "auth_events" =
        some (.arr ((match c10eb.AuthEvents with
                     | PrevAuthValue.refs l => l.map (fun (r : EventReference) => r.eventID)
                     | _ => []).map JValue.str)) ∧
      (∀ l, c10eb.PrevEvents = PrevAuthValue.strs l →
        jLookup out "prev_events" = some (.arr [])) ∧
      (c10eb.PrevEvents = PrevAuthValue.nilValue →
        jLookup out "prev_events" = some (.arr [])) :=
  ⟨by decide, by decide,
   build_v2_replaces_non_reference_prev_auth c10sha c10sign c10eb 0 "org" "k"
     "p" "r" "3" c10event (by decide) (by decide)⟩
